import Mathlib

/-!
Verification development for the MyPitch vocal-range application.

The repository contains two versions of the front-end logic:
`src/App.tsx` (the original layout, embedded below in namespace `OldApp`)
and a redesigned file (embedded in namespace `NewApp`).  The range-capture
state machine (validity filter, fast pass, stability window, stage
completion), the polling loop and the recommendation merge logic are
translated here as pure functions over explicit state records.

Numbers are modelled as rationals.  The only transcendental operation in
the source, `frequencyToMidi(f) = 69 + 12*log2(f/440)`, is kept abstract:
the per-sample handler takes the conversion as a function parameter named
`frequencyToMidi`, exactly where the source calls the module-level helper.
-/

/-- Sorted (ascending) copy of a list of rationals; models
`[...values].sort((a, b) => a - b)` from `median` in App.tsx. -/
def insertSorted (x : ℚ) : List ℚ → List ℚ
  | [] => [x]
  | y :: ys => if x ≤ y then x :: y :: ys else y :: insertSorted x ys

/-- Ascending sort used by `median`. -/
def sortAsc (l : List ℚ) : List ℚ := l.foldr insertSorted []

/-- Embedding of `median` from App.tsx (identical in both versions):
empty input yields 0, otherwise the middle element of the sorted copy,
averaging the two middle elements for even length. -/
def median (values : List ℚ) : ℚ :=
  if values.length = 0 then 0
  else
    let sorted := sortAsc values
    let mid := sorted.length / 2
    if sorted.length % 2 = 0 then (sorted.getD (mid - 1) 0 + sorted.getD mid 0) / 2
    else sorted.getD mid 0

/-- `CONFIDENCE_THRESHOLD = 0.12` from App.tsx. -/
def CONFIDENCE_THRESHOLD : ℚ := 12 / 100

/-- `CONFIDENCE_PASS_THRESHOLD = 0.55` from App.tsx. -/
def CONFIDENCE_PASS_THRESHOLD : ℚ := 55 / 100

/-- `CONFIDENCE_PASS_MS = 250` from App.tsx. -/
def CONFIDENCE_PASS_MS : ℚ := 250

/-- `RMS_THRESHOLD = 0.001` from App.tsx. -/
def RMS_THRESHOLD : ℚ := 1 / 1000

/-- `STABLE_REQUIRED_MS = 600` from App.tsx. -/
def STABLE_REQUIRED_MS : ℚ := 600

/-- `STABLE_NOTE_DELTA = 2.0` from App.tsx. -/
def STABLE_NOTE_DELTA : ℚ := 2

/-- `LEVEL_GAIN = 12` from App.tsx. -/
def LEVEL_GAIN : ℚ := 12

/-- `SILENCE_RESET_MS = 200` from App.tsx. -/
def SILENCE_RESET_MS : ℚ := 200

/-- `HIGH_STAGE_MIN_DELAY_MS = 200` from App.tsx. -/
def HIGH_STAGE_MIN_DELAY_MS : ℚ := 200

/-- `HIGH_NOTE_MIN_SEMITONES = 0.5` from App.tsx. -/
def HIGH_NOTE_MIN_SEMITONES : ℚ := 1 / 2

/-- The `TestStage` union type from App.tsx. -/
inductive TestStage where
  | idle
  | capture_low
  | capture_high
  | done
  deriving Repr, DecidableEq

/-- The `sampleState` React state, one of `"idle" | "valid" | "invalid"`. -/
inductive SampleState where
  | idle
  | valid
  | invalid
  deriving Repr, DecidableEq

/-- The `PitchData` record from App.tsx. -/
structure PitchData where
  frequency_hz : Option ℚ
  confidence : ℚ
  note_name : Option String
  cents_offset : Option ℚ
  deriving Repr, DecidableEq

/-- The `RangeResult` record from App.tsx. -/
structure RangeResult where
  lowMidi : Option ℚ
  highMidi : Option ℚ
  comfortLowMidi : Option ℚ
  comfortHighMidi : Option ℚ
  deriving Repr, DecidableEq

/-- The contents of `fastPassRef`. -/
structure FastPassState where
  stage : Option TestStage
  startAt : Option ℚ
  deriving Repr, DecidableEq

/-- The contents of `stableRef` (the stability window). -/
structure StabilityWindow where
  startAt : Option ℚ
  lastValidAt : Option ℚ
  samples : List ℚ
  deriving Repr, DecidableEq

/-- The mutable state of the range-capture state machine: the refs and the
React state touched by `handlePitchSampleForRangeTest` and its callees.
`stage` stands for the pair `testStage`/`stageRef` which the source always
updates together. -/
structure CaptureState where
  stage : TestStage
  instruction : String
  stabilityMs : ℚ
  sampleState : SampleState
  awaitingResultStep : Bool
  rangeResult : RangeResult
  fastPass : FastPassState
  stageEnteredAt : ℚ
  waitForSilenceBeforeHigh : Bool
  silenceStart : Option ℚ
  stable : StabilityWindow
  lastGoodPitch : Option ℚ
  stableHistory : List ℚ
  lowMidi : Option ℚ
  highMidi : Option ℚ
  deriving Repr, DecidableEq

/-- The sample-validity expression of `handlePitchSampleForRangeTest`
(identical in both versions), as the source writes it:
`level > RMS_THRESHOLD && hasFreq && (confidenceOk || hasFreq)`. -/
def isValidSample (level : ℚ) (pitch : PitchData) : Bool :=
  let hasFreq := match pitch.frequency_hz with
    | some f => decide (0 < f)
    | none => false
  let confidenceOk :=
    decide (CONFIDENCE_THRESHOLD < pitch.confidence) || decide (pitch.note_name ≠ none)
  decide (RMS_THRESHOLD < level) && hasFreq && (confidenceOk || hasFreq)

/-- The smoothing expression of `handlePitchSampleForRangeTest` (identical
in both versions): exponential smoothing against the previous accepted
pitch when the jump is at most 4 semitones, pass-through otherwise. -/
def smoothWith (prevGood : Option ℚ) (midi : ℚ) : ℚ :=
  match prevGood with
  | some prev => if |midi - prev| ≤ 4 then prev * (65 / 100) + midi * (35 / 100) else midi
  | none => midi

namespace NewApp

/-- `resetStability` from the redesigned App.tsx. -/
def resetStability (s : CaptureState) : CaptureState :=
  { s with stable := ⟨none, none, []⟩, lastGoodPitch := none,
           stabilityMs := 0, sampleState := SampleState.idle }

/-- `resetRangeTest` from the redesigned App.tsx. -/
def resetRangeTest (s : CaptureState) : CaptureState :=
  resetStability
    { s with stage := TestStage.idle,
             instruction := "Click Start Range Test to begin.",
             lowMidi := none, highMidi := none,
             stageEnteredAt := 0,
             fastPass := ⟨none, none⟩,
             waitForSilenceBeforeHigh := false,
             silenceStart := none,
             stableHistory := [],
             rangeResult := ⟨none, none, none, none⟩,
             awaitingResultStep := false }

/-- `finishRangeTest` from the redesigned App.tsx. -/
def finishRangeTest (s : CaptureState) : CaptureState :=
  match s.lowMidi, s.highMidi with
  | some lowMidi, some highMidi =>
    let center :=
      if 0 < s.stableHistory.length then median s.stableHistory else (lowMidi + highMidi) / 2
    let comfortLow := max lowMidi (center - 3)
    let comfortHigh := min highMidi (center + 3)
    { s with rangeResult := ⟨some lowMidi, some highMidi, some comfortLow, some comfortHigh⟩,
             instruction := "High note captured. Click Next Step to view result.",
             stage := TestStage.done,
             awaitingResultStep := true }
  | _, _ =>
    { s with instruction := "Range test did not complete. Please try again.",
             stage := TestStage.idle }

/-- `completeStageWithMidi` from the redesigned App.tsx. -/
def completeStageWithMidi (stage : TestStage) (stableMidi timestamp : ℚ)
    (s : CaptureState) : CaptureState :=
  let s2 := { resetStability s with fastPass := (⟨none, none⟩ : FastPassState) }
  if stage = TestStage.capture_low then
    { s2 with lowMidi := some stableMidi,
              rangeResult := { s2.rangeResult with lowMidi := some stableMidi },
              instruction :=
                "Low note captured. Now sing your highest comfortable note and hold for 1 second.",
              stage := TestStage.capture_high,
              stageEnteredAt := timestamp,
              waitForSilenceBeforeHigh := false,
              silenceStart := none }
  else if timestamp - s2.stageEnteredAt < HIGH_STAGE_MIN_DELAY_MS then s2
  else if (match s2.lowMidi with
           | some lowMidi => decide (stableMidi < lowMidi + HIGH_NOTE_MIN_SEMITONES)
           | none => false) then
    { s2 with instruction := "Detected pitch is too close to low note. Please sing higher and hold." }
  else
    finishRangeTest
      { s2 with highMidi := some stableMidi,
                rangeResult := { s2.rangeResult with highMidi := some stableMidi } }

/-- The inter-stage silence-gate block at the top of
`handlePitchSampleForRangeTest` in the redesigned App.tsx.  Note the block
does not return: processing falls through to the validity filter. -/
def silenceGateStep (timestamp level : ℚ) (s : CaptureState) : CaptureState :=
  if s.stage = TestStage.capture_high ∧ s.waitForSilenceBeforeHigh then
    if level < RMS_THRESHOLD * (6 / 10) then
      let silStart := match s.silenceStart with
        | none => timestamp
        | some t0 => t0
      if SILENCE_RESET_MS ≤ timestamp - silStart then
        { s with waitForSilenceBeforeHigh := false,
                 silenceStart := none,
                 instruction := "Now sing your highest comfortable note and hold for 1 second.",
                 sampleState := SampleState.idle }
      else { s with silenceStart := some silStart }
    else
      { s with silenceStart := none,
               instruction := "Pause briefly (near silence), then sing your highest note." }
  else s

/-- The tail of `handlePitchSampleForRangeTest` after the fast-pass
dispatch: smoothing, the stability window update and the stability-hold
finalization, from the redesigned App.tsx. -/
def stabilitySegment (frequencyToMidi : ℚ → ℚ) (stage : TestStage) (timestamp freq : ℚ)
    (s0 : CaptureState) : CaptureState :=
  let s := { s0 with sampleState := SampleState.valid }
  let midi := frequencyToMidi freq
  let smoothMidi := smoothWith s.lastGoodPitch midi
  let s := { s with lastGoodPitch := some smoothMidi }
  if s.stable.samples.length = 0 then
    { s with stable := ⟨some timestamp, some timestamp, [smoothMidi]⟩, stabilityMs := 0 }
  else
    let center := median s.stable.samples
    if STABLE_NOTE_DELTA < |smoothMidi - center| then
      { s with stable := ⟨some timestamp, some timestamp, [smoothMidi]⟩, stabilityMs := 0 }
    else
      let pushed := s.stable.samples ++ [smoothMidi]
      let samples := if 20 < pushed.length then pushed.tail else pushed
      let s := { s with stable := ⟨s.stable.startAt, some timestamp, samples⟩,
                        stableHistory := s.stableHistory ++ [smoothMidi] }
      let elapsed := match s.stable.startAt with
        | some startAt => timestamp - startAt
        | none => 0
      let s := { s with stabilityMs := elapsed }
      if STABLE_REQUIRED_MS ≤ elapsed then
        completeStageWithMidi stage (median samples) timestamp s
      else s

/-- `handlePitchSampleForRangeTest` from the redesigned App.tsx.
`frequencyToMidi` abstracts the source expression `69 + 12*log2(f/440)`. -/
def handlePitchSampleForRangeTest (frequencyToMidi : ℚ → ℚ) (timestamp level : ℚ)
    (pitch : PitchData) (s0 : CaptureState) : CaptureState :=
  if s0.stage ≠ TestStage.capture_low ∧ s0.stage ≠ TestStage.capture_high then s0
  else
    let stage := s0.stage
    let s := silenceGateStep timestamp level s0
    if isValidSample level pitch = false ∨ pitch.frequency_hz = none then
      let s1 := { s with fastPass := (⟨none, none⟩ : FastPassState),
                         sampleState := SampleState.invalid }
      match s1.stable.lastValidAt with
      | some lastValidAt =>
        if timestamp - lastValidAt < 1200 then s1 else resetStability s1
      | none => resetStability s1
    else
      match pitch.frequency_hz with
      | none => s
      | some freq =>
        if CONFIDENCE_PASS_THRESHOLD ≤ pitch.confidence then
          if s.fastPass.stage ≠ some stage ∨ s.fastPass.startAt = none then
            stabilitySegment frequencyToMidi stage timestamp freq
              { s with fastPass := ⟨some stage, some timestamp⟩ }
          else
            match s.fastPass.startAt with
            | some startAt =>
              if CONFIDENCE_PASS_MS ≤ timestamp - startAt then
                completeStageWithMidi stage (frequencyToMidi freq) timestamp s
              else stabilitySegment frequencyToMidi stage timestamp freq s
            | none => stabilitySegment frequencyToMidi stage timestamp freq s
        else if s.fastPass.stage = some stage then
          stabilitySegment frequencyToMidi stage timestamp freq
            { s with fastPass := (⟨none, none⟩ : FastPassState) }
        else stabilitySegment frequencyToMidi stage timestamp freq s

/-- Fold of the handler over a list of `(timestamp, level, pitch)` samples. -/
def processSamples (frequencyToMidi : ℚ → ℚ) (s : CaptureState)
    (samples : List (ℚ × ℚ × PitchData)) : CaptureState :=
  samples.foldl (fun acc x => handlePitchSampleForRangeTest frequencyToMidi x.1 x.2.1 x.2.2 acc) s

/-- The initial values of the capture refs and React state. -/
def initialCaptureState : CaptureState :=
  { stage := TestStage.idle,
    instruction := "Click Start Range Test to begin.",
    stabilityMs := 0,
    sampleState := SampleState.idle,
    awaitingResultStep := false,
    rangeResult := ⟨none, none, none, none⟩,
    fastPass := ⟨none, none⟩,
    stageEnteredAt := 0,
    waitForSilenceBeforeHigh := false,
    silenceStart := none,
    stable := ⟨none, none, []⟩,
    lastGoodPitch := none,
    stableHistory := [],
    lowMidi := none,
    highMidi := none }

/-- The capture-state effect of `startRangeTest` from the redesigned
App.tsx (after the stream restart succeeds): reset, then enter
`capture_low` at the current time. -/
def startRangeTest (now : ℚ) (s : CaptureState) : CaptureState :=
  { resetRangeTest s with
      stage := TestStage.capture_low,
      stageEnteredAt := now,
      awaitingResultStep := false,
      instruction := "Sing your lowest comfortable note and hold for 1 second." }

end NewApp

namespace OldApp

/-- `resetStability` from the original `src/App.tsx`. -/
def resetStability (s : CaptureState) : CaptureState :=
  { s with stable := ⟨none, none, []⟩, lastGoodPitch := none,
           stabilityMs := 0, sampleState := SampleState.idle }

/-- `finishRangeTest` from the original `src/App.tsx`. -/
def finishRangeTest (s : CaptureState) : CaptureState :=
  match s.lowMidi, s.highMidi with
  | some lowMidi, some highMidi =>
    let center :=
      if 0 < s.stableHistory.length then median s.stableHistory else (lowMidi + highMidi) / 2
    let comfortLow := max lowMidi (center - 3)
    let comfortHigh := min highMidi (center + 3)
    { s with rangeResult := ⟨some lowMidi, some highMidi, some comfortLow, some comfortHigh⟩,
             instruction := "High note captured. Click Next Step to view result.",
             stage := TestStage.done,
             awaitingResultStep := true }
  | _, _ =>
    { s with instruction := "Range test did not complete. Please try again.",
             stage := TestStage.idle }

/-- `completeStageWithMidi` from the original `src/App.tsx`. -/
def completeStageWithMidi (stage : TestStage) (stableMidi timestamp : ℚ)
    (s : CaptureState) : CaptureState :=
  let s2 := { resetStability s with fastPass := (⟨none, none⟩ : FastPassState) }
  if stage = TestStage.capture_low then
    { s2 with lowMidi := some stableMidi,
              rangeResult := { s2.rangeResult with lowMidi := some stableMidi },
              instruction :=
                "Low note captured. Now sing your highest comfortable note and hold for 1 second.",
              stage := TestStage.capture_high,
              stageEnteredAt := timestamp,
              waitForSilenceBeforeHigh := false,
              silenceStart := none }
  else if timestamp - s2.stageEnteredAt < HIGH_STAGE_MIN_DELAY_MS then s2
  else if (match s2.lowMidi with
           | some lowMidi => decide (stableMidi < lowMidi + HIGH_NOTE_MIN_SEMITONES)
           | none => false) then
    { s2 with instruction := "Detected pitch is too close to low note. Please sing higher and hold." }
  else
    finishRangeTest
      { s2 with highMidi := some stableMidi,
                rangeResult := { s2.rangeResult with highMidi := some stableMidi } }

/-- The inter-stage silence-gate block of `handlePitchSampleForRangeTest`
in the original `src/App.tsx`.  It differs from the redesigned version
only in the instruction text emitted when the gate clears. -/
def silenceGateStep (timestamp level : ℚ) (s : CaptureState) : CaptureState :=
  if s.stage = TestStage.capture_high ∧ s.waitForSilenceBeforeHigh then
    if level < RMS_THRESHOLD * (6 / 10) then
      let silStart := match s.silenceStart with
        | none => timestamp
        | some t0 => t0
      if SILENCE_RESET_MS ≤ timestamp - silStart then
        { s with waitForSilenceBeforeHigh := false,
                 silenceStart := none,
                 instruction :=
                   "Now sing your highest comfortable \x27ah\x27 and hold for 1 second.",
                 sampleState := SampleState.idle }
      else { s with silenceStart := some silStart }
    else
      { s with silenceStart := none,
               instruction := "Pause briefly (near silence), then sing your highest note." }
  else s

/-- The tail of `handlePitchSampleForRangeTest` after the fast-pass
dispatch, from the original `src/App.tsx`. -/
def stabilitySegment (frequencyToMidi : ℚ → ℚ) (stage : TestStage) (timestamp freq : ℚ)
    (s0 : CaptureState) : CaptureState :=
  let s := { s0 with sampleState := SampleState.valid }
  let midi := frequencyToMidi freq
  let smoothMidi := smoothWith s.lastGoodPitch midi
  let s := { s with lastGoodPitch := some smoothMidi }
  if s.stable.samples.length = 0 then
    { s with stable := ⟨some timestamp, some timestamp, [smoothMidi]⟩, stabilityMs := 0 }
  else
    let center := median s.stable.samples
    if STABLE_NOTE_DELTA < |smoothMidi - center| then
      { s with stable := ⟨some timestamp, some timestamp, [smoothMidi]⟩, stabilityMs := 0 }
    else
      let pushed := s.stable.samples ++ [smoothMidi]
      let samples := if 20 < pushed.length then pushed.tail else pushed
      let s := { s with stable := ⟨s.stable.startAt, some timestamp, samples⟩,
                        stableHistory := s.stableHistory ++ [smoothMidi] }
      let elapsed := match s.stable.startAt with
        | some startAt => timestamp - startAt
        | none => 0
      let s := { s with stabilityMs := elapsed }
      if STABLE_REQUIRED_MS ≤ elapsed then
        completeStageWithMidi stage (median samples) timestamp s
      else s

/-- `handlePitchSampleForRangeTest` from the original `src/App.tsx`. -/
def handlePitchSampleForRangeTest (frequencyToMidi : ℚ → ℚ) (timestamp level : ℚ)
    (pitch : PitchData) (s0 : CaptureState) : CaptureState :=
  if s0.stage ≠ TestStage.capture_low ∧ s0.stage ≠ TestStage.capture_high then s0
  else
    let stage := s0.stage
    let s := silenceGateStep timestamp level s0
    if isValidSample level pitch = false ∨ pitch.frequency_hz = none then
      let s1 := { s with fastPass := (⟨none, none⟩ : FastPassState),
                         sampleState := SampleState.invalid }
      match s1.stable.lastValidAt with
      | some lastValidAt =>
        if timestamp - lastValidAt < 1200 then s1 else resetStability s1
      | none => resetStability s1
    else
      match pitch.frequency_hz with
      | none => s
      | some freq =>
        if CONFIDENCE_PASS_THRESHOLD ≤ pitch.confidence then
          if s.fastPass.stage ≠ some stage ∨ s.fastPass.startAt = none then
            stabilitySegment frequencyToMidi stage timestamp freq
              { s with fastPass := ⟨some stage, some timestamp⟩ }
          else
            match s.fastPass.startAt with
            | some startAt =>
              if CONFIDENCE_PASS_MS ≤ timestamp - startAt then
                completeStageWithMidi stage (frequencyToMidi freq) timestamp s
              else stabilitySegment frequencyToMidi stage timestamp freq s
            | none => stabilitySegment frequencyToMidi stage timestamp freq s
        else if s.fastPass.stage = some stage then
          stabilitySegment frequencyToMidi stage timestamp freq
            { s with fastPass := (⟨none, none⟩ : FastPassState) }
        else stabilitySegment frequencyToMidi stage timestamp freq s

/-- Fold of the original handler over a list of samples. -/
def processSamples (frequencyToMidi : ℚ → ℚ) (s : CaptureState)
    (samples : List (ℚ × ℚ × PitchData)) : CaptureState :=
  samples.foldl (fun acc x => handlePitchSampleForRangeTest frequencyToMidi x.1 x.2.1 x.2.2 acc) s

end OldApp

/-- The polling-loop state of the redesigned App.tsx: the interval timer,
the in-flight guard, the consecutive-error counter, the level/pitch React
state, the status line and the capture state the loop feeds. -/
structure PollState where
  timerActive : Bool
  inFlight : Bool
  errorCount : ℕ
  rawInputLevel : ℚ
  inputLevel : ℚ
  pitchData : PitchData
  status : Option String
  capture : CaptureState
  deriving Repr, DecidableEq

/-- The outcome of the two backend calls of one poll tick: `none` models the
corresponding `invoke` throwing. -/
structure TickOutcome where
  now : ℚ
  levelResult : Option ℚ
  pitchResult : Option PitchData
  deriving Repr, DecidableEq

namespace NewApp

/-- `stopLevelPolling` from the redesigned App.tsx: clears the timer, the
level and pitch display state, the error counter and the in-flight guard.
It does not touch `status` or any capture state. -/
def stopLevelPolling (s : PollState) : PollState :=
  { s with timerActive := false,
           inputLevel := 0,
           rawInputLevel := 0,
           pitchData := ⟨none, 0, none, none⟩,
           errorCount := 0,
           inFlight := false }

/-- One tick of the interval callback installed by `startLevelPolling` in
the redesigned App.tsx.  A cleared timer means the callback no longer
fires; an in-flight tick is dropped by the reentrancy guard. -/
def pollTick (frequencyToMidi : ℚ → ℚ) (s : PollState) (tick : TickOutcome) : PollState :=
  if s.timerActive = false then s
  else if s.inFlight then s
  else
    let s0 := { s with inFlight := true }
    let levelStep : PollState × Bool × ℚ :=
      match tick.levelResult with
      | some level =>
        let safeLevel := max 0 (min 1 level)
        let boostedLevel := max 0 (min 1 (safeLevel * LEVEL_GAIN))
        ({ s0 with rawInputLevel := safeLevel, inputLevel := boostedLevel }, true, safeLevel)
      | none => (s0, false, s0.rawInputLevel)
    let s1 := levelStep.1
    let sampledLevel := levelStep.2.2
    let pitchStep : PollState × Bool :=
      match tick.pitchResult with
      | some pitch =>
        let safePitch : PitchData :=
          { frequency_hz := pitch.frequency_hz,
            confidence := max 0 (min 1 pitch.confidence),
            note_name := pitch.note_name,
            cents_offset := pitch.cents_offset }
        let s2 := { s1 with pitchData := safePitch }
        let newCapture :=
          handlePitchSampleForRangeTest frequencyToMidi tick.now sampledLevel safePitch s2.capture
        ({ s2 with capture := newCapture }, true)
      | none => (s1, levelStep.2.1)
    let s3 := pitchStep.1
    let s4 : PollState :=
      if pitchStep.2 then { s3 with errorCount := 0 }
      else { s3 with errorCount := s3.errorCount + 1 }
    let s5 := if 20 ≤ s4.errorCount then stopLevelPolling s4 else s4
    { s5 with inFlight := false }

/-- Fold of the poll tick over a list of tick outcomes. -/
def runPolling (frequencyToMidi : ℚ → ℚ) (s : PollState) (ticks : List TickOutcome) : PollState :=
  ticks.foldl (pollTick frequencyToMidi) s

end NewApp

/-- The fields of a `SongRecommendation` that the merge and display logic
reads: identity, score and provenance. -/
structure SongRecommendation where
  title : String
  artist : String
  shift : ℤ
  fit_score : ℤ
  is_imported : Bool
  deriving Repr, DecidableEq

/-- The dedup key expression used throughout App.tsx. -/
def songKey (s : SongRecommendation) : String := s.title ++ "::" ++ s.artist

/-- JavaScript `Math.round`: round half up. -/
def jsRound (x : ℚ) : ℤ := ⌊x + 1 / 2⌋

/-- The four integer arguments of a `recommend_songs` backend call. -/
structure RecoQuery where
  userLowMidi : ℤ
  userHighMidi : ℤ
  comfortLowMidi : ℤ
  comfortHighMidi : ℤ
  deriving Repr, DecidableEq

/-- Observable outcome of `loadRecommendations`: the ranged queries issued
to the backend in order, the merged recommendation list and the status
message set. -/
structure LoadOutcome where
  queriesIssued : List RecoQuery
  recommendations : List SongRecommendation
  statusMsg : Option String
  deriving Repr, DecidableEq

namespace NewApp

/-- Body of the dedup-merge loop of `loadRecommendations`: the `seen` set
is carried as the second component. -/
def mergeStep (acc : List SongRecommendation × List String) (song : SongRecommendation) :
    List SongRecommendation × List String :=
  if songKey song ∈ acc.2 then acc
  else (acc.1 ++ [song], acc.2 ++ [songKey song])

/-- The dedup-merge loop of `loadRecommendations`: appends each imported
song whose title/artist key was not seen among the ranged results or the
already-appended imported songs. -/
def mergeImported (recs importedOnly : List SongRecommendation) : List SongRecommendation :=
  (importedOnly.foldl mergeStep (recs, recs.map songKey)).1

/-- `loadRecommendations` from the redesigned App.tsx, with the backend
`recommend_songs` call abstracted as a function of the query and the
`recommend_imported_songs` result supplied as a list. -/
def loadRecommendations (recommendSongs : RecoQuery → List SongRecommendation)
    (importedOnly : List SongRecommendation) (r : RangeResult) : LoadOutcome :=
  match r.lowMidi, r.highMidi, r.comfortLowMidi, r.comfortHighMidi with
  | some lowMidi, some highMidi, some comfortLowMidi, some comfortHighMidi =>
    let primary : RecoQuery :=
      ⟨jsRound lowMidi, jsRound highMidi, jsRound comfortLowMidi, jsRound comfortHighMidi⟩
    let recs := recommendSongs primary
    if recs.length = 0 then
      let fallback : RecoQuery :=
        ⟨jsRound lowMidi - 4, jsRound highMidi + 4,
         jsRound comfortLowMidi - 2, jsRound comfortHighMidi + 2⟩
      let recs2 := recommendSongs fallback
      { queriesIssued := [primary, fallback],
        recommendations := mergeImported recs2 importedOnly,
        statusMsg :=
          if 0 < recs2.length then some "No strict matches. Showing closest challenge songs."
          else none }
    else
      { queriesIssued := [primary],
        recommendations := mergeImported recs importedOnly,
        statusMsg := none }
  | _, _, _, _ =>
    { queriesIssued := [],
      recommendations := mergeImported [] importedOnly,
      statusMsg := none }

/-- Body of the seen-set filter of `renderRecommendations`: keep an
imported song the first time its key appears. -/
def visStep (acc : List SongRecommendation × List String) (s : SongRecommendation) :
    List SongRecommendation × List String :=
  if s.is_imported = false then acc
  else if songKey s ∈ acc.2 then acc
  else (acc.1 ++ [s], acc.2 ++ [songKey s])

/-- The `visibleRecommendations` slice of `renderRecommendations` in the
redesigned App.tsx: either everything, or the top five followed by every
imported song whose key is not already visible. -/
def visibleRecommendations (showAll : Bool) (recommendations : List SongRecommendation) :
    List SongRecommendation :=
  if showAll then recommendations
  else
    let top := recommendations.take 5
    let filtered :=
      (recommendations.foldl visStep (([] : List SongRecommendation), top.map songKey)).1
    top ++ filtered

end NewApp

/-- C1: the validity filter of `handlePitchSampleForRangeTest`.  The first
conjunct characterizes the source expression
`level > RMS_THRESHOLD && hasFreq && (confidenceOk || hasFreq)`: because
`hasFreq` reappears in the disjunction, a sample is classified valid
exactly when the level exceeds the floor and a positive frequency is
present — the confidence floor and the note name play no role.  The second
conjunct evaluates the handler on the failing input of the claim: level 1/2,
frequency 50, confidence 1/100 (below the 0.12 floor) and no note name,
from a fresh `capture_low` state.  The sample is accepted as valid and
enters the stability window, while the claim requires it to be invalid. -/
theorem validity_filter_ignores_confidence :
    (∀ (level : ℚ) (pitch : PitchData),
        isValidSample level pitch = true ↔
          (RMS_THRESHOLD < level ∧ ∃ f, pitch.frequency_hz = some f ∧ 0 < f)) ∧
    ((NewApp.handlePitchSampleForRangeTest id 0 (1/2) ⟨some 50, 1/100, none, none⟩
        (NewApp.startRangeTest 0 NewApp.initialCaptureState)).sampleState = SampleState.valid ∧
     (NewApp.handlePitchSampleForRangeTest id 0 (1/2) ⟨some 50, 1/100, none, none⟩
        (NewApp.startRangeTest 0 NewApp.initialCaptureState)).stable.samples = [50]) := by
  constructor
  · intro level pitch
    cases hf : pitch.frequency_hz with
    | none =>
      simp [isValidSample, hf]
    | some f =>
      simp only [isValidSample, hf, Bool.and_eq_true, Bool.or_eq_true, decide_eq_true_iff]
      constructor
      · rintro ⟨⟨hl, hfr⟩, -⟩
        exact ⟨hl, f, rfl, hfr⟩
      · rintro ⟨hl, f', hf', hpos⟩
        cases hf'
        exact ⟨⟨hl, hpos⟩, Or.inr hpos⟩
  · constructor <;>
    · norm_num [NewApp.handlePitchSampleForRangeTest, NewApp.silenceGateStep,
        NewApp.stabilitySegment, NewApp.startRangeTest, NewApp.resetRangeTest,
        NewApp.resetStability, NewApp.initialCaptureState, isValidSample, smoothWith,
        CONFIDENCE_THRESHOLD, CONFIDENCE_PASS_THRESHOLD, RMS_THRESHOLD]
      simp

/-- Sample sequence for the comfort-zone counterexample: two quiet
mid-confidence samples near midi 50 feed the stable history, then
high-confidence fast passes capture the low note at midi 80 and the high
note at midi 81. -/
def comfortCexSamples : List (ℚ × ℚ × PitchData) :=
  [ (0,   1/2, ⟨some 50, 3/10, none, none⟩),
    (100, 1/2, ⟨some 50, 3/10, none, none⟩),
    (200, 1/2, ⟨some 80, 6/10, none, none⟩),
    (450, 1/2, ⟨some 80, 6/10, none, none⟩),
    (550, 1/2, ⟨some 81, 6/10, none, none⟩),
    (800, 1/2, ⟨some 81, 6/10, none, none⟩) ]

/-- State after starting the counterexample range test. -/
def c2s0 : CaptureState :=
  { stage := TestStage.capture_low,
    instruction := "Sing your lowest comfortable note and hold for 1 second.",
    stabilityMs := 0, sampleState := SampleState.idle, awaitingResultStep := false,
    rangeResult := ⟨none, none, none, none⟩, fastPass := ⟨none, none⟩,
    stageEnteredAt := 0, waitForSilenceBeforeHigh := false, silenceStart := none,
    stable := ⟨none, none, []⟩, lastGoodPitch := none, stableHistory := [],
    lowMidi := none, highMidi := none }

/-- State after the sample at t = 0. -/
def c2s1 : CaptureState :=
  { c2s0 with sampleState := SampleState.valid,
              stable := ⟨some 0, some 0, [50]⟩, lastGoodPitch := some 50 }

/-- State after the sample at t = 100. -/
def c2s2 : CaptureState :=
  { c2s1 with stable := ⟨some 0, some 100, [50, 50]⟩,
              stableHistory := [50], stabilityMs := 100 }

/-- State after the sample at t = 200. -/
def c2s3 : CaptureState :=
  { c2s2 with fastPass := ⟨some TestStage.capture_low, some 200⟩,
              stable := ⟨some 200, some 200, [80]⟩,
              stabilityMs := 0, lastGoodPitch := some 80 }

/-- State after the fast-pass low capture at t = 450. -/
def c2s4 : CaptureState :=
  { stage := TestStage.capture_high,
    instruction := "Low note captured. Now sing your highest comfortable note and hold for 1 second.",
    stabilityMs := 0, sampleState := SampleState.idle, awaitingResultStep := false,
    rangeResult := ⟨some 80, none, none, none⟩, fastPass := ⟨none, none⟩,
    stageEnteredAt := 450, waitForSilenceBeforeHigh := false, silenceStart := none,
    stable := ⟨none, none, []⟩, lastGoodPitch := none, stableHistory := [50],
    lowMidi := some 80, highMidi := none }

/-- State after the sample at t = 550. -/
def c2s5 : CaptureState :=
  { c2s4 with fastPass := ⟨some TestStage.capture_high, some 550⟩,
              sampleState := SampleState.valid, lastGoodPitch := some 81,
              stable := ⟨some 550, some 550, [81]⟩ }

/-- State after the fast-pass high capture at t = 800: the completed test. -/
def c2s6 : CaptureState :=
  { stage := TestStage.done,
    instruction := "High note captured. Click Next Step to view result.",
    stabilityMs := 0, sampleState := SampleState.idle, awaitingResultStep := true,
    rangeResult := ⟨some 80, some 81, some 80, some 53⟩, fastPass := ⟨none, none⟩,
    stageEnteredAt := 450, waitForSilenceBeforeHigh := false, silenceStart := none,
    stable := ⟨none, none, []⟩, lastGoodPitch := none, stableHistory := [50],
    lowMidi := some 80, highMidi := some 81 }

/-- Single-step evaluations of the counterexample run. -/
theorem c2_run :
    NewApp.startRangeTest 0 NewApp.initialCaptureState = c2s0 ∧
    NewApp.handlePitchSampleForRangeTest id 0 (1/2) ⟨some 50, 3/10, none, none⟩ c2s0 = c2s1 ∧
    NewApp.handlePitchSampleForRangeTest id 100 (1/2) ⟨some 50, 3/10, none, none⟩ c2s1 = c2s2 ∧
    NewApp.handlePitchSampleForRangeTest id 200 (1/2) ⟨some 80, 6/10, none, none⟩ c2s2 = c2s3 ∧
    NewApp.handlePitchSampleForRangeTest id 450 (1/2) ⟨some 80, 6/10, none, none⟩ c2s3 = c2s4 ∧
    NewApp.handlePitchSampleForRangeTest id 550 (1/2) ⟨some 81, 6/10, none, none⟩ c2s4 = c2s5 ∧
    NewApp.handlePitchSampleForRangeTest id 800 (1/2) ⟨some 81, 6/10, none, none⟩ c2s5 = c2s6 := by
  refine ⟨?_, ?_, ?_, ?_, ?_, ?_, ?_⟩ <;>
  · norm_num [NewApp.handlePitchSampleForRangeTest, NewApp.silenceGateStep,
      NewApp.stabilitySegment, NewApp.completeStageWithMidi, NewApp.finishRangeTest,
      NewApp.resetStability, NewApp.startRangeTest, NewApp.resetRangeTest,
      NewApp.initialCaptureState, isValidSample, smoothWith,
      median, sortAsc, insertSorted, c2s0, c2s1, c2s2, c2s3, c2s4, c2s5, c2s6,
      CONFIDENCE_THRESHOLD, CONFIDENCE_PASS_THRESHOLD, CONFIDENCE_PASS_MS, RMS_THRESHOLD,
      STABLE_REQUIRED_MS, STABLE_NOTE_DELTA, SILENCE_RESET_MS, HIGH_STAGE_MIN_DELAY_MS,
      HIGH_NOTE_MIN_SEMITONES, abs_le, abs_sub_le_iff, neg_le]
    try simp

/-- C2: counterexample.  Running the redesigned handler from a fresh
range test over `comfortCexSamples` completes the test with
`lowMidi = 80`, `highMidi = 81` (so the high-stage margin guard
`highMidi ≥ lowMidi + 0.5` held), yet the stable history median is 50,
giving `comfortLowMidi = 80 > 53 = comfortHighMidi`: the completed
`RangeResult` violates `comfortLowMidi ≤ comfortHighMidi`, and
`comfortHighMidi` lies below `lowMidi`. -/
theorem comfort_invariant_violated :
    (NewApp.processSamples id (NewApp.startRangeTest 0 NewApp.initialCaptureState)
        comfortCexSamples).stage = TestStage.done ∧
    (NewApp.processSamples id (NewApp.startRangeTest 0 NewApp.initialCaptureState)
        comfortCexSamples).rangeResult =
      ⟨some 80, some 81, some 80, some 53⟩ ∧
    (80 : ℚ) + 1 / 2 ≤ 81 ∧ ¬((80 : ℚ) ≤ 53) := by
  obtain ⟨h0, h1, h2, h3, h4, h5, h6⟩ := c2_run
  have : NewApp.processSamples id (NewApp.startRangeTest 0 NewApp.initialCaptureState)
      comfortCexSamples = c2s6 := by
    simp only [NewApp.processSamples, comfortCexSamples, List.foldl_cons, List.foldl_nil,
      h0, h1, h2, h3, h4, h5, h6]
  rw [this]
  refine ⟨rfl, rfl, by norm_num, by norm_num⟩

/-- C2 (amended): for every completed range test whose recorded values
satisfy the high-stage margin guard `low + 0.5 ≤ high`, and whose center
pitch — the median of the accumulated stable history, or the midpoint of
low and high when that history is empty — lies within `[low - 3, high + 3]`,
the finished `RangeResult` records `comfortLow = max(low, center - 3)` and
`comfortHigh = min(high, center + 3)`, these satisfy
`comfortLow ≤ comfortHigh`, and both lie within `[low, high]`.  The center
condition is necessary: `comfort_invariant_violated` exhibits a completed
test whose center lies below `low - 3` and whose comfort bounds are out of
order. -/
theorem comfort_within_range_amended (s : CaptureState) (low high center : ℚ)
    (hlow : s.lowMidi = some low) (hhigh : s.highMidi = some high)
    (hmargin : low + 1 / 2 ≤ high)
    (hcenter : center = (if 0 < s.stableHistory.length then median s.stableHistory
        else (low + high) / 2))
    (hlo : low - 3 ≤ center) (hhi : center ≤ high + 3) :
    (NewApp.finishRangeTest s).stage = TestStage.done ∧
    (NewApp.finishRangeTest s).rangeResult =
      ⟨some low, some high, some (max low (center - 3)), some (min high (center + 3))⟩ ∧
    max low (center - 3) ≤ min high (center + 3) ∧
    low ≤ max low (center - 3) ∧ max low (center - 3) ≤ high ∧
    low ≤ min high (center + 3) ∧ min high (center + 3) ≤ high := by
  have hlh : low ≤ high := by linarith
  subst hcenter
  refine ⟨?_, ?_, ?_, le_max_left _ _, ?_, ?_, min_le_left _ _⟩
  · simp [NewApp.finishRangeTest, hlow, hhigh]
  · simp [NewApp.finishRangeTest, hlow, hhigh]
  · exact le_min (max_le hlh (by linarith)) (max_le (by linarith) (by linarith))
  · exact max_le hlh (by linarith)
  · exact le_min hlh (by linarith)

/-- Witness for `comfort_within_range_amended` at a concrete completed
state: low 50, high 60, stable history `[55]`, center 55. -/
theorem comfort_within_range_amended_witness :
    ((50 : ℚ) + 1 / 2 ≤ 60) ∧
    ((NewApp.finishRangeTest
        { NewApp.initialCaptureState with
            lowMidi := some 50, highMidi := some 60, stableHistory := [55] }).stage =
          TestStage.done ∧
     (NewApp.finishRangeTest
        { NewApp.initialCaptureState with
            lowMidi := some 50, highMidi := some 60, stableHistory := [55] }).rangeResult =
       ⟨some 50, some 60, some (max 50 ((55 : ℚ) - 3)), some (min 60 ((55 : ℚ) + 3))⟩ ∧
     max (50 : ℚ) (55 - 3) ≤ min 60 (55 + 3) ∧
     (50 : ℚ) ≤ max 50 (55 - 3) ∧ max (50 : ℚ) (55 - 3) ≤ 60 ∧
     (50 : ℚ) ≤ min 60 (55 + 3) ∧ min (60 : ℚ) (55 + 3) ≤ 60) :=
  ⟨by norm_num,
   comfort_within_range_amended _ 50 60 55 rfl rfl (by norm_num)
     (by norm_num [NewApp.initialCaptureState, median, sortAsc, insertSorted])
     (by norm_num) (by norm_num)⟩

/-- High-capture state just before a stability-hold finalization whose
candidate is too close to the recorded low note. -/
def c3State : CaptureState :=
  { stage := TestStage.capture_high,
    instruction := "Low note captured. Now sing your highest comfortable note and hold for 1 second.",
    stabilityMs := 100, sampleState := SampleState.valid, awaitingResultStep := false,
    rangeResult := ⟨some 50, none, none, none⟩, fastPass := ⟨none, none⟩,
    stageEnteredAt := 0, waitForSilenceBeforeHigh := false, silenceStart := none,
    stable := ⟨some 0, some 100, [50]⟩, lastGoodPitch := some 50, stableHistory := [50, 50],
    lowMidi := some 50, highMidi := none }

/-- C3: counterexample to "the rest of the capture state is left
unchanged".  From `c3State` (stability window `[50]` anchored at 0, last
good pitch 50), the sample at t = 600 with pitch 50 triggers a
stability-hold finalization attempt with candidate 50 < 50 + 0.5.  The
attempt is rejected — stage stays `capture_high`, `highMidi` stays
unrecorded, the retry prompt is set — but the stability window and the
smoothing anchor have been cleared rather than left unchanged. -/
theorem high_reject_state_changed :
    (NewApp.handlePitchSampleForRangeTest id 600 (1/2) ⟨some 50, 3/10, none, none⟩
        c3State).stage = TestStage.capture_high ∧
    (NewApp.handlePitchSampleForRangeTest id 600 (1/2) ⟨some 50, 3/10, none, none⟩
        c3State).highMidi = none ∧
    (NewApp.handlePitchSampleForRangeTest id 600 (1/2) ⟨some 50, 3/10, none, none⟩
        c3State).instruction =
      "Detected pitch is too close to low note. Please sing higher and hold." ∧
    (NewApp.handlePitchSampleForRangeTest id 600 (1/2) ⟨some 50, 3/10, none, none⟩
        c3State).stable.samples = [] ∧
    (NewApp.handlePitchSampleForRangeTest id 600 (1/2) ⟨some 50, 3/10, none, none⟩
        c3State).lastGoodPitch = none ∧
    c3State.stable.samples = [50] ∧ c3State.lastGoodPitch = some 50 := by
  have h : NewApp.handlePitchSampleForRangeTest id 600 (1/2) ⟨some 50, 3/10, none, none⟩
      c3State =
      { c3State with
          instruction := "Detected pitch is too close to low note. Please sing higher and hold.",
          stabilityMs := 0, sampleState := SampleState.idle,
          stable := ⟨none, none, []⟩, lastGoodPitch := none,
          stableHistory := [50, 50, 50] } := by
    norm_num [NewApp.handlePitchSampleForRangeTest, NewApp.silenceGateStep,
      NewApp.stabilitySegment, NewApp.completeStageWithMidi, NewApp.finishRangeTest,
      NewApp.resetStability, c3State, isValidSample, smoothWith,
      median, sortAsc, insertSorted,
      CONFIDENCE_THRESHOLD, CONFIDENCE_PASS_THRESHOLD, CONFIDENCE_PASS_MS, RMS_THRESHOLD,
      STABLE_REQUIRED_MS, STABLE_NOTE_DELTA, HIGH_STAGE_MIN_DELAY_MS,
      HIGH_NOTE_MIN_SEMITONES, abs_le, abs_sub_le_iff, neg_le]
    try simp
  rw [h]
  exact ⟨rfl, rfl, rfl, rfl, rfl, rfl, rfl⟩

/-- C3 (amended): every high-stage finalization attempt (both the
stability hold and the fast pass funnel through `completeStageWithMidi`)
whose candidate is below `low + 0.5` and which passes the minimum-dwell
check is rejected: the stage does not advance, `highMidi` and the rest of
the recorded capture state (`lowMidi`, `rangeResult`, `stageEnteredAt`,
stable history, silence gate) are unchanged and the instruction becomes
the retry prompt — while the stability window and the fast-pass state are
cleared, as they are on every finalization attempt. -/
theorem high_reject_behavior (s : CaptureState) (stableMidi timestamp low : ℚ)
    (hdwell : HIGH_STAGE_MIN_DELAY_MS ≤ timestamp - s.stageEnteredAt)
    (hlow : s.lowMidi = some low)
    (hmargin : stableMidi < low + HIGH_NOTE_MIN_SEMITONES) :
    (NewApp.completeStageWithMidi TestStage.capture_high stableMidi timestamp s).stage =
      s.stage ∧
    (NewApp.completeStageWithMidi TestStage.capture_high stableMidi timestamp s).highMidi =
      s.highMidi ∧
    (NewApp.completeStageWithMidi TestStage.capture_high stableMidi timestamp s).lowMidi =
      s.lowMidi ∧
    (NewApp.completeStageWithMidi TestStage.capture_high stableMidi timestamp s).instruction =
      "Detected pitch is too close to low note. Please sing higher and hold." ∧
    (NewApp.completeStageWithMidi TestStage.capture_high stableMidi timestamp s).rangeResult =
      s.rangeResult ∧
    (NewApp.completeStageWithMidi TestStage.capture_high stableMidi timestamp s).stageEnteredAt =
      s.stageEnteredAt ∧
    (NewApp.completeStageWithMidi TestStage.capture_high stableMidi timestamp s).stableHistory =
      s.stableHistory ∧
    (NewApp.completeStageWithMidi TestStage.capture_high stableMidi
        timestamp s).waitForSilenceBeforeHigh = s.waitForSilenceBeforeHigh ∧
    (NewApp.completeStageWithMidi TestStage.capture_high stableMidi timestamp s).silenceStart =
      s.silenceStart ∧
    (NewApp.completeStageWithMidi TestStage.capture_high stableMidi
        timestamp s).awaitingResultStep = s.awaitingResultStep ∧
    (NewApp.completeStageWithMidi TestStage.capture_high stableMidi timestamp s).stable =
      ⟨none, none, []⟩ ∧
    (NewApp.completeStageWithMidi TestStage.capture_high stableMidi timestamp s).fastPass =
      ⟨none, none⟩ ∧
    (NewApp.completeStageWithMidi TestStage.capture_high stableMidi timestamp s).lastGoodPitch =
      none := by
  have hd : ¬(timestamp - s.stageEnteredAt < HIGH_STAGE_MIN_DELAY_MS) := not_lt.mpr hdwell
  simp [NewApp.completeStageWithMidi, NewApp.resetStability, hlow, hmargin, hd]

/-- Witness for `high_reject_behavior`: the concrete rejection from
`c3State` with candidate 50, timestamp 600, recorded low 50. -/
theorem high_reject_behavior_witness :
    (HIGH_STAGE_MIN_DELAY_MS ≤ (600 : ℚ) - c3State.stageEnteredAt) ∧
    ((NewApp.completeStageWithMidi TestStage.capture_high 50 600 c3State).stage =
        c3State.stage ∧
     (NewApp.completeStageWithMidi TestStage.capture_high 50 600 c3State).highMidi =
        c3State.highMidi ∧
     (NewApp.completeStageWithMidi TestStage.capture_high 50 600 c3State).lowMidi =
        c3State.lowMidi ∧
     (NewApp.completeStageWithMidi TestStage.capture_high 50 600 c3State).instruction =
        "Detected pitch is too close to low note. Please sing higher and hold." ∧
     (NewApp.completeStageWithMidi TestStage.capture_high 50 600 c3State).rangeResult =
        c3State.rangeResult ∧
     (NewApp.completeStageWithMidi TestStage.capture_high 50 600 c3State).stageEnteredAt =
        c3State.stageEnteredAt ∧
     (NewApp.completeStageWithMidi TestStage.capture_high 50 600 c3State).stableHistory =
        c3State.stableHistory ∧
     (NewApp.completeStageWithMidi TestStage.capture_high 50
        600 c3State).waitForSilenceBeforeHigh = c3State.waitForSilenceBeforeHigh ∧
     (NewApp.completeStageWithMidi TestStage.capture_high 50 600 c3State).silenceStart =
        c3State.silenceStart ∧
     (NewApp.completeStageWithMidi TestStage.capture_high 50
        600 c3State).awaitingResultStep = c3State.awaitingResultStep ∧
     (NewApp.completeStageWithMidi TestStage.capture_high 50 600 c3State).stable =
        ⟨none, none, []⟩ ∧
     (NewApp.completeStageWithMidi TestStage.capture_high 50 600 c3State).fastPass =
        ⟨none, none⟩ ∧
     (NewApp.completeStageWithMidi TestStage.capture_high 50 600 c3State).lastGoodPitch =
        none) :=
  ⟨by norm_num [c3State, HIGH_STAGE_MIN_DELAY_MS],
   high_reject_behavior c3State 50 600 50
     (by norm_num [c3State, HIGH_STAGE_MIN_DELAY_MS]) rfl
     (by norm_num [HIGH_NOTE_MIN_SEMITONES])⟩

/-- C4: the inter-stage silence gate is never armed, and the gate block
does not block samples.  First conjunct: completing the low stage (the
`CaptureLow → CaptureHigh` transition) explicitly sets
`waitForSilenceBeforeHigh := false` — the gate is disarmed, not armed.
Second conjunct: even from a state whose gate flag is artificially set, a
loud valid sample is still accepted into the capture pipeline (it lands in
the stability window and the sample is marked valid) while the gate stays
set — the gate block only rewrites the instruction text and falls
through. -/
theorem silence_gate_never_armed :
    ((NewApp.completeStageWithMidi TestStage.capture_low 50 1000
        { NewApp.initialCaptureState with
            stage := TestStage.capture_low }).waitForSilenceBeforeHigh = false ∧
     (NewApp.completeStageWithMidi TestStage.capture_low 50 1000
        { NewApp.initialCaptureState with stage := TestStage.capture_low }).stage =
       TestStage.capture_high) ∧
    ((NewApp.handlePitchSampleForRangeTest id 1100 (1/2) ⟨some 60, 3/10, none, none⟩
        { NewApp.initialCaptureState with
            stage := TestStage.capture_high, waitForSilenceBeforeHigh := true,
            lowMidi := some 50 }).waitForSilenceBeforeHigh = true ∧
     (NewApp.handlePitchSampleForRangeTest id 1100 (1/2) ⟨some 60, 3/10, none, none⟩
        { NewApp.initialCaptureState with
            stage := TestStage.capture_high, waitForSilenceBeforeHigh := true,
            lowMidi := some 50 }).stable.samples = [60] ∧
     (NewApp.handlePitchSampleForRangeTest id 1100 (1/2) ⟨some 60, 3/10, none, none⟩
        { NewApp.initialCaptureState with
            stage := TestStage.capture_high, waitForSilenceBeforeHigh := true,
            lowMidi := some 50 }).sampleState = SampleState.valid ∧
     (NewApp.handlePitchSampleForRangeTest id 1100 (1/2) ⟨some 60, 3/10, none, none⟩
        { NewApp.initialCaptureState with
            stage := TestStage.capture_high, waitForSilenceBeforeHigh := true,
            lowMidi := some 50 }).instruction =
       "Pause briefly (near silence), then sing your highest note.") := by
  constructor
  · constructor <;>
    · norm_num [NewApp.completeStageWithMidi, NewApp.resetStability,
        NewApp.initialCaptureState]
  · refine ⟨?_, ?_, ?_, ?_⟩ <;>
    · norm_num [NewApp.handlePitchSampleForRangeTest, NewApp.silenceGateStep,
        NewApp.stabilitySegment, NewApp.initialCaptureState, isValidSample, smoothWith,
        CONFIDENCE_THRESHOLD, CONFIDENCE_PASS_THRESHOLD, RMS_THRESHOLD,
        SILENCE_RESET_MS]
      try simp

/-- Poll state right after a range test was started: timer running, no
errors yet, a status line from the stream start. -/
def c9Start : PollState :=
  { timerActive := true, inFlight := false, errorCount := 0,
    rawInputLevel := 0, inputLevel := 0,
    pitchData := ⟨none, 0, none, none⟩,
    status := some "Audio input started",
    capture := { NewApp.initialCaptureState with stage := TestStage.capture_low } }

/-- C9: counterexample to "surfaces a user-visible status".  After 20
consecutive ticks in which both backend calls fail, the loop stops
(timer cleared), transient level/pitch state is cleared and the capture
state is untouched — but the user-visible status line is left exactly as
it was: no status about the failure is surfaced. -/
theorem sustained_failure_stops_without_status :
    NewApp.runPolling id c9Start (List.replicate 20 ⟨0, none, none⟩) =
      NewApp.stopLevelPolling c9Start ∧
    (NewApp.stopLevelPolling c9Start).timerActive = false ∧
    (NewApp.stopLevelPolling c9Start).rawInputLevel = 0 ∧
    (NewApp.stopLevelPolling c9Start).inputLevel = 0 ∧
    (NewApp.stopLevelPolling c9Start).pitchData = ⟨none, 0, none, none⟩ ∧
    (NewApp.stopLevelPolling c9Start).capture = c9Start.capture ∧
    (NewApp.stopLevelPolling c9Start).status = some "Audio input started" ∧
    c9Start.status = some "Audio input started" := by
  refine ⟨?_, rfl, rfl, rfl, rfl, rfl, rfl, rfl⟩
  rfl

/-- One both-calls-fail tick: the error counter is incremented, and once
it reaches 20 the loop stops itself. -/
theorem pollTick_bothfail (f2m : ℚ → ℚ) (s : PollState) (tick : TickOutcome)
    (ha : s.timerActive = true) (hf : s.inFlight = false)
    (hl : tick.levelResult = none) (hp : tick.pitchResult = none) :
    NewApp.pollTick f2m s tick =
      (if 20 ≤ s.errorCount + 1 then NewApp.stopLevelPolling s
       else { s with errorCount := s.errorCount + 1 }) := by
  by_cases h20 : 20 ≤ s.errorCount + 1 <;>
    simp [NewApp.pollTick, NewApp.stopLevelPolling, hl, hp, ha, hf, h20]

/-- The poll loop stopped by `stopLevelPolling` forgets the error counter
and the in-flight flag. -/
theorem stopLevelPolling_congr (s : PollState) (k : ℕ) (b : Bool) :
    NewApp.stopLevelPolling { s with errorCount := k, inFlight := b } =
      NewApp.stopLevelPolling s := rfl

/-- Runs of consecutive both-fail ticks that take the error counter from
below 20 up to 20: the loop ends in exactly the `stopLevelPolling` state. -/
theorem runPolling_bothfail (f2m : ℚ → ℚ) (ticks : List TickOutcome) :
    ∀ s : PollState, s.timerActive = true → s.inFlight = false →
    (∀ t ∈ ticks, t.levelResult = none ∧ t.pitchResult = none) →
    s.errorCount + ticks.length = 20 → s.errorCount < 20 →
    NewApp.runPolling f2m s ticks = NewApp.stopLevelPolling s := by
  induction ticks with
  | nil =>
    intro s _ _ _ hcount hlt
    simp at hcount
    omega
  | cons t ts ih =>
    intro s ha hf hfail hcount hlt
    have hft := hfail t (List.mem_cons_self t ts)
    have hstep := pollTick_bothfail f2m s t ha hf hft.1 hft.2
    show (t :: ts).foldl (NewApp.pollTick f2m) s = NewApp.stopLevelPolling s
    rw [List.foldl_cons, hstep]
    by_cases h20 : 20 ≤ s.errorCount + 1
    · have hts : ts = [] := by
        have := hcount
        simp at this
        have : ts.length = 0 := by omega
        exact List.length_eq_zero.mp this
      subst hts
      rw [if_pos h20]
      simp [NewApp.runPolling, NewApp.stopLevelPolling]
    · rw [if_neg h20]
      have := ih { s with errorCount := s.errorCount + 1 } ha hf
        (fun x hx => hfail x (List.mem_cons_of_mem t hx))
        (by
          simp only [List.length_cons] at hcount
          show s.errorCount + 1 + ts.length = 20
          omega)
        (by
          show s.errorCount + 1 < 20
          omega)
      simpa [NewApp.runPolling] using this

/-- C9 (amended): poll-loop failure handling.  Part one: a tick in which
at least one of the two backend calls succeeds resets the consecutive
failure counter, and the previous value of the failed call stays in force
(level display on level failure, pitch display and capture state on pitch
failure).  Part two: after a run of consecutive ticks in which both calls
fail takes the counter to 20, the loop is stopped, the transient
level/pitch state is cleared, and neither the capture state nor the
user-visible status is changed — in particular no failure status is
surfaced. -/
theorem poll_failure_handling :
    (∀ (f2m : ℚ → ℚ) (s : PollState) (tick : TickOutcome),
      s.timerActive = true → s.inFlight = false →
      (tick.levelResult ≠ none ∨ tick.pitchResult ≠ none) →
      (NewApp.pollTick f2m s tick).errorCount = 0 ∧
      (tick.levelResult = none →
        (NewApp.pollTick f2m s tick).rawInputLevel = s.rawInputLevel ∧
        (NewApp.pollTick f2m s tick).inputLevel = s.inputLevel) ∧
      (tick.pitchResult = none →
        (NewApp.pollTick f2m s tick).pitchData = s.pitchData ∧
        (NewApp.pollTick f2m s tick).capture = s.capture)) ∧
    (∀ (f2m : ℚ → ℚ) (ticks : List TickOutcome) (s : PollState),
      s.timerActive = true → s.inFlight = false →
      (∀ t ∈ ticks, t.levelResult = none ∧ t.pitchResult = none) →
      s.errorCount + ticks.length = 20 → s.errorCount < 20 →
      NewApp.runPolling f2m s ticks = NewApp.stopLevelPolling s ∧
      (NewApp.stopLevelPolling s).timerActive = false ∧
      (NewApp.stopLevelPolling s).rawInputLevel = 0 ∧
      (NewApp.stopLevelPolling s).inputLevel = 0 ∧
      (NewApp.stopLevelPolling s).pitchData = ⟨none, 0, none, none⟩ ∧
      (NewApp.stopLevelPolling s).capture = s.capture ∧
      (NewApp.stopLevelPolling s).status = s.status) := by
  constructor
  · intro f2m s tick ha hf hsome
    rcases tick with ⟨now, lv, pt⟩
    rcases lv with _ | l <;> rcases pt with _ | p
    · simp at hsome
    · refine ⟨by simp [NewApp.pollTick, ha, hf], ?_, ?_⟩
      · intro _
        constructor <;> simp [NewApp.pollTick, ha, hf]
      · intro h
        simp at h
    · refine ⟨by simp [NewApp.pollTick, ha, hf], ?_, ?_⟩
      · intro h
        simp at h
      · intro _
        constructor <;> simp [NewApp.pollTick, ha, hf]
    · refine ⟨by simp [NewApp.pollTick, ha, hf], ?_, ?_⟩
      · intro h
        simp at h
      · intro h
        simp at h
  · intro f2m ticks s ha hf hfail hcount hlt
    exact ⟨runPolling_bothfail f2m ticks s ha hf hfail hcount hlt,
      rfl, rfl, rfl, rfl, rfl, rfl⟩

/-- Witness for `poll_failure_handling`: a pitch-only success tick resets
the counter and keeps the previous level, and twenty both-fail ticks from
`c9Start` stop the loop with the status untouched. -/
theorem poll_failure_handling_witness :
    ((NewApp.pollTick id c9Start ⟨0, none, some ⟨some 50, 1/2, none, none⟩⟩).errorCount = 0 ∧
     (NewApp.pollTick id c9Start
        ⟨0, none, some ⟨some 50, 1/2, none, none⟩⟩).rawInputLevel = c9Start.rawInputLevel) ∧
    (NewApp.runPolling id c9Start (List.replicate 20 ⟨0, none, none⟩) =
      NewApp.stopLevelPolling c9Start ∧
     (NewApp.stopLevelPolling c9Start).status = c9Start.status) := by
  have h1 := (poll_failure_handling.1 id c9Start ⟨0, none, some ⟨some 50, 1/2, none, none⟩⟩
    rfl rfl (by simp))
  have h2 := (poll_failure_handling.2 id (List.replicate 20 ⟨0, none, none⟩) c9Start
    rfl rfl (by intro t ht; simp at ht; simp [ht]) (by simp [c9Start])
    (by norm_num [c9Start]))
  exact ⟨⟨h1.1, (h1.2.1 rfl).1⟩, h2.1, h2.2.2.2.2.2.2⟩

/-- Validity of a sample that has level above the floor and a positive
frequency estimate. -/
theorem isValidSample_eq_true (level : ℚ) (pitch : PitchData) (f : ℚ)
    (hf : pitch.frequency_hz = some f) (hpos : 0 < f) (hlevel : RMS_THRESHOLD < level) :
    isValidSample level pitch = true := by
  simp [isValidSample, hf, hpos, hlevel]

/-- The silence-gate block only rewrites the gate flag, the silence timer,
the instruction and the sample-state badge. -/
theorem newGate_fields (timestamp level : ℚ) (s : CaptureState) :
    (NewApp.silenceGateStep timestamp level s).stage = s.stage ∧
    (NewApp.silenceGateStep timestamp level s).stable = s.stable ∧
    (NewApp.silenceGateStep timestamp level s).lastGoodPitch = s.lastGoodPitch ∧
    (NewApp.silenceGateStep timestamp level s).fastPass = s.fastPass ∧
    (NewApp.silenceGateStep timestamp level s).stableHistory = s.stableHistory ∧
    (NewApp.silenceGateStep timestamp level s).lowMidi = s.lowMidi ∧
    (NewApp.silenceGateStep timestamp level s).highMidi = s.highMidi ∧
    (NewApp.silenceGateStep timestamp level s).stageEnteredAt = s.stageEnteredAt ∧
    (NewApp.silenceGateStep timestamp level s).rangeResult = s.rangeResult ∧
    (NewApp.silenceGateStep timestamp level s).stabilityMs = s.stabilityMs := by
  obtain ⟨st, ins, sm, ss, aw, rr, fp, se, w, sil, stb, lg, hist, lo, hi⟩ := s
  cases sil <;>
  · unfold NewApp.silenceGateStep
    split_ifs <;> simp_all [apply_ite]

/-- `finishRangeTest` never touches the stability window, the fast-pass
state, the smoothing anchor, the history or the recorded stage values. -/
theorem finish_fields (s : CaptureState) :
    (NewApp.finishRangeTest s).fastPass = s.fastPass ∧
    (NewApp.finishRangeTest s).stable = s.stable ∧
    (NewApp.finishRangeTest s).lastGoodPitch = s.lastGoodPitch ∧
    (NewApp.finishRangeTest s).stableHistory = s.stableHistory ∧
    (NewApp.finishRangeTest s).lowMidi = s.lowMidi ∧
    (NewApp.finishRangeTest s).highMidi = s.highMidi ∧
    (NewApp.finishRangeTest s).stageEnteredAt = s.stageEnteredAt := by
  unfold NewApp.finishRangeTest
  rcases hl : s.lowMidi with _ | low <;> rcases hh : s.highMidi with _ | high <;>
    simp [hl, hh]

/-- `finishRangeTest` leaves the fast-pass state alone. -/
theorem finish_fastPass (s : CaptureState) :
    (NewApp.finishRangeTest s).fastPass = s.fastPass := (finish_fields s).1

/-- Every finalization attempt clears the fast-pass state. -/
theorem complete_fastPass (stage : TestStage) (m t : ℚ) (s : CaptureState) :
    (NewApp.completeStageWithMidi stage m t s).fastPass = ⟨none, none⟩ := by
  by_cases h1 : stage = TestStage.capture_low
  · simp [NewApp.completeStageWithMidi, NewApp.resetStability, h1]
  · by_cases h2 : t - s.stageEnteredAt < HIGH_STAGE_MIN_DELAY_MS
    · simp [NewApp.completeStageWithMidi, NewApp.resetStability, h1, h2]
    · by_cases h3 : (match s.lowMidi with
          | some lowMidi => decide (m < lowMidi + HIGH_NOTE_MIN_SEMITONES)
          | none => false) = true
      · simp [NewApp.completeStageWithMidi, NewApp.resetStability, h1, h2, h3]
      · simp [NewApp.completeStageWithMidi, NewApp.resetStability, h1, h2, h3,
          finish_fastPass]

/-- Low-stage finalization records the candidate and enters the high
stage. -/
theorem complete_low (m t : ℚ) (s : CaptureState) :
    (NewApp.completeStageWithMidi TestStage.capture_low m t s).lowMidi = some m ∧
    (NewApp.completeStageWithMidi TestStage.capture_low m t s).stage =
      TestStage.capture_high ∧
    (NewApp.completeStageWithMidi TestStage.capture_low m t s).highMidi = s.highMidi ∧
    (NewApp.completeStageWithMidi TestStage.capture_low m t s).stageEnteredAt = t ∧
    (NewApp.completeStageWithMidi TestStage.capture_low m t
        s).waitForSilenceBeforeHigh = false := by
  simp [NewApp.completeStageWithMidi, NewApp.resetStability]

/-- High-stage finalization past the dwell check with a candidate meeting
the margin records the candidate and completes the test. -/
theorem complete_high_accept (m t low : ℚ) (s : CaptureState)
    (hdwell : ¬(t - s.stageEnteredAt < HIGH_STAGE_MIN_DELAY_MS))
    (hl : s.lowMidi = some low)
    (hm : ¬(m < low + HIGH_NOTE_MIN_SEMITONES)) :
    (NewApp.completeStageWithMidi TestStage.capture_high m t s).highMidi = some m ∧
    (NewApp.completeStageWithMidi TestStage.capture_high m t s).stage = TestStage.done := by
  unfold NewApp.completeStageWithMidi
  simp only [NewApp.resetStability]
  rw [if_neg (by simp), if_neg (by simpa using hdwell)]
  rw [if_neg (by simp [hl, hm])]
  constructor <;> simp [NewApp.finishRangeTest, hl]

/-- Branch analysis of the smoothing and stability-window segment:
restart (empty buffer or deviation beyond tolerance, new anchor), append
below the hold time, and append reaching the hold time, which hands the
buffer median to `completeStageWithMidi`. -/
theorem stabilitySegment_cases (f2m : ℚ → ℚ) (stage : TestStage) (t freq : ℚ)
    (X : CaptureState) (smoothMidi : ℚ) (pushed samples2 : List ℚ) (elapsed : ℚ)
    (hsm : smoothMidi = smoothWith X.lastGoodPitch (f2m freq))
    (hpu : pushed = X.stable.samples ++ [smoothMidi])
    (hsa : samples2 = if 20 < pushed.length then pushed.tail else pushed)
    (hel : elapsed = (match X.stable.startAt with | some a => t - a | none => 0)) :
    (X.stable.samples = [] ∨ STABLE_NOTE_DELTA < |smoothMidi - median X.stable.samples| →
      NewApp.stabilitySegment f2m stage t freq X =
        { X with sampleState := SampleState.valid,
                 lastGoodPitch := some smoothMidi,
                 stable := ⟨some t, some t, [smoothMidi]⟩,
                 stabilityMs := 0 }) ∧
    (X.stable.samples ≠ [] → |smoothMidi - median X.stable.samples| ≤ STABLE_NOTE_DELTA →
      elapsed < STABLE_REQUIRED_MS →
      NewApp.stabilitySegment f2m stage t freq X =
        { X with sampleState := SampleState.valid,
                 lastGoodPitch := some smoothMidi,
                 stable := ⟨X.stable.startAt, some t, samples2⟩,
                 stableHistory := X.stableHistory ++ [smoothMidi],
                 stabilityMs := elapsed }) ∧
    (X.stable.samples ≠ [] → |smoothMidi - median X.stable.samples| ≤ STABLE_NOTE_DELTA →
      STABLE_REQUIRED_MS ≤ elapsed →
      NewApp.stabilitySegment f2m stage t freq X =
        NewApp.completeStageWithMidi stage (median samples2) t
          { X with sampleState := SampleState.valid,
                   lastGoodPitch := some smoothMidi,
                   stable := ⟨X.stable.startAt, some t, samples2⟩,
                   stableHistory := X.stableHistory ++ [smoothMidi],
                   stabilityMs := elapsed }) := by
  subst hsm hpu hsa hel
  refine ⟨?_, ?_, ?_⟩
  · intro h
    unfold NewApp.stabilitySegment
    rcases h with he | hd
    · simp [he]
    · by_cases hlen : X.stable.samples = []
      · simp [hlen]
      · rw [if_neg (by simp [hlen])]
        simp [hd]
  · intro h1 h2 h3
    unfold NewApp.stabilitySegment
    rw [if_neg (by simp [h1])]
    rw [if_neg (by simpa using not_lt.mpr h2)]
    rw [if_neg (by simpa using not_le.mpr h3)]
  · intro h1 h2 h3
    unfold NewApp.stabilitySegment
    rw [if_neg (by simp [h1])]
    rw [if_neg (by simpa using not_lt.mpr h2)]
    rw [if_pos (by simpa using h3)]

/-- Reduction of the handler for a valid sample: the silence gate runs
first (without blocking), then the fast-pass dispatch decides between an
immediate `completeStageWithMidi` on the raw converted pitch and the
smoothing/stability segment. -/
theorem handle_valid_dispatch (f2m : ℚ → ℚ) (timestamp level freq : ℚ) (pitch : PitchData)
    (s : CaptureState)
    (hstage : s.stage = TestStage.capture_low ∨ s.stage = TestStage.capture_high)
    (hfreq : pitch.frequency_hz = some freq) (hpos : 0 < freq)
    (hlevel : RMS_THRESHOLD < level) :
    NewApp.handlePitchSampleForRangeTest f2m timestamp level pitch s =
      (if CONFIDENCE_PASS_THRESHOLD ≤ pitch.confidence then
         if s.fastPass.stage ≠ some s.stage ∨ s.fastPass.startAt = none then
           NewApp.stabilitySegment f2m s.stage timestamp freq
             { NewApp.silenceGateStep timestamp level s with
                 fastPass := ⟨some s.stage, some timestamp⟩ }
         else
           match s.fastPass.startAt with
           | some u =>
             if CONFIDENCE_PASS_MS ≤ timestamp - u then
               NewApp.completeStageWithMidi s.stage (f2m freq) timestamp
                 (NewApp.silenceGateStep timestamp level s)
             else NewApp.stabilitySegment f2m s.stage timestamp freq
               (NewApp.silenceGateStep timestamp level s)
           | none => NewApp.stabilitySegment f2m s.stage timestamp freq
               (NewApp.silenceGateStep timestamp level s)
       else if s.fastPass.stage = some s.stage then
         NewApp.stabilitySegment f2m s.stage timestamp freq
           { NewApp.silenceGateStep timestamp level s with
               fastPass := (⟨none, none⟩ : FastPassState) }
       else NewApp.stabilitySegment f2m s.stage timestamp freq
         (NewApp.silenceGateStep timestamp level s)) := by
  obtain ⟨-, -, -, hfp, -⟩ := newGate_fields timestamp level s
  unfold NewApp.handlePitchSampleForRangeTest
  rw [if_neg (by rcases hstage with h | h <;> simp [h])]
  rw [if_neg (by simp [isValidSample_eq_true level pitch freq hfreq hpos hlevel, hfreq])]
  simp only [hfreq, hfp]

/-- Stability-window behavior of the segment, stated against a reference
state `s` whose capture fields agree with the actual input `X` (the
silence gate and the fast-pass dispatch may have rewritten other
fields). -/
theorem stability_content (f2m : ℚ → ℚ) (t freq : ℚ) (s X : CaptureState)
    (smoothMidi : ℚ) (pushed samples2 : List ℚ) (elapsed : ℚ)
    (hXstable : X.stable = s.stable) (hXlast : X.lastGoodPitch = s.lastGoodPitch)
    (hXhist : X.stableHistory = s.stableHistory) (hXstage : X.stage = s.stage)
    (hXlow : X.lowMidi = s.lowMidi) (hXhigh : X.highMidi = s.highMidi)
    (hXenter : X.stageEnteredAt = s.stageEnteredAt)
    (hsm : smoothMidi = smoothWith s.lastGoodPitch (f2m freq))
    (hpu : pushed = s.stable.samples ++ [smoothMidi])
    (hsa : samples2 = if 20 < pushed.length then pushed.tail else pushed)
    (hel : elapsed = (match s.stable.startAt with | some a => t - a | none => 0)) :
    (s.stable.samples = [] ∨ STABLE_NOTE_DELTA < |smoothMidi - median s.stable.samples| →
      (NewApp.stabilitySegment f2m s.stage t freq X).stable =
        ⟨some t, some t, [smoothMidi]⟩ ∧
      (NewApp.stabilitySegment f2m s.stage t freq X).stabilityMs = 0 ∧
      (NewApp.stabilitySegment f2m s.stage t freq X).stage = s.stage ∧
      (NewApp.stabilitySegment f2m s.stage t freq X).stableHistory = s.stableHistory ∧
      (NewApp.stabilitySegment f2m s.stage t freq X).lowMidi = s.lowMidi ∧
      (NewApp.stabilitySegment f2m s.stage t freq X).highMidi = s.highMidi) ∧
    (s.stable.samples ≠ [] → |smoothMidi - median s.stable.samples| ≤ STABLE_NOTE_DELTA →
      elapsed < STABLE_REQUIRED_MS →
      (NewApp.stabilitySegment f2m s.stage t freq X).stable =
        ⟨s.stable.startAt, some t, samples2⟩ ∧
      (NewApp.stabilitySegment f2m s.stage t freq X).stableHistory =
        s.stableHistory ++ [smoothMidi] ∧
      (NewApp.stabilitySegment f2m s.stage t freq X).stabilityMs = elapsed ∧
      (NewApp.stabilitySegment f2m s.stage t freq X).stage = s.stage ∧
      (NewApp.stabilitySegment f2m s.stage t freq X).lowMidi = s.lowMidi ∧
      (NewApp.stabilitySegment f2m s.stage t freq X).highMidi = s.highMidi) ∧
    (s.stable.samples ≠ [] → |smoothMidi - median s.stable.samples| ≤ STABLE_NOTE_DELTA →
      STABLE_REQUIRED_MS ≤ elapsed →
      (∃ Y, NewApp.stabilitySegment f2m s.stage t freq X =
          NewApp.completeStageWithMidi s.stage (median samples2) t Y) ∧
      (s.stage = TestStage.capture_low →
        (NewApp.stabilitySegment f2m s.stage t freq X).lowMidi = some (median samples2) ∧
        (NewApp.stabilitySegment f2m s.stage t freq X).stage = TestStage.capture_high) ∧
      (s.stage = TestStage.capture_high →
        ¬(t - s.stageEnteredAt < HIGH_STAGE_MIN_DELAY_MS) →
        ∀ low, s.lowMidi = some low →
        ¬(median samples2 < low + HIGH_NOTE_MIN_SEMITONES) →
        (NewApp.stabilitySegment f2m s.stage t freq X).highMidi = some (median samples2) ∧
        (NewApp.stabilitySegment f2m s.stage t freq X).stage = TestStage.done)) := by
  obtain ⟨hA, hB, hC⟩ := stabilitySegment_cases f2m s.stage t freq X smoothMidi pushed
    samples2 elapsed (by rw [hsm, hXlast]) (by rw [hpu, hXstable]) hsa
    (by rw [hel, hXstable])
  refine ⟨?_, ?_, ?_⟩
  · intro h
    rw [hA (by rwa [hXstable])]
    simp [hXstage, hXhist, hXlow, hXhigh]
  · intro h1 h2 h3
    rw [hB (by rwa [hXstable]) (by rwa [hXstable]) h3]
    simp [hXstage, hXhist, hXlow, hXhigh, hXstable]
  · intro h1 h2 h3
    rw [hC (by rwa [hXstable]) (by rwa [hXstable]) h3]
    refine ⟨⟨_, rfl⟩, ?_, ?_⟩
    · intro hst
      rw [hst]
      obtain ⟨hco1, hco2, -, -, -⟩ := complete_low (median samples2) t
        { X with sampleState := SampleState.valid,
                 lastGoodPitch := some smoothMidi,
                 stable := ⟨X.stable.startAt, some t, samples2⟩,
                 stableHistory := X.stableHistory ++ [smoothMidi],
                 stabilityMs := elapsed }
      exact ⟨hco1, hco2⟩
    · intro hst hdwell low hlow hmargin
      rw [hst]
      exact complete_high_accept (median samples2) t low _
        (by simpa [hXenter] using hdwell) (by simpa [hXlow] using hlow) hmargin

/-- C5: stability-window processing of a valid smoothed sample in a
capture stage (the fast-pass completion case excluded by `hnofast`).
With `smoothMidi` the smoothed pitch, `samples2` the buffer after
appending with one oldest element evicted past capacity 20, and `elapsed`
the time since the window anchor: a deviation from the buffer median
beyond 2 semitones (or an empty buffer) restarts the buffer as
`[smoothMidi]` anchored at the timestamp of the sample; otherwise the sample is
appended, and once `elapsed` reaches 600 ms the stage finalizes through
`completeStageWithMidi` with `median samples2` as the stage result — in
the low stage recording it and advancing to the high stage, in the high
stage (past the dwell and margin guards of C3) recording it and completing
the test. -/
theorem stability_window_step (f2m : ℚ → ℚ) (timestamp level freq : ℚ) (pitch : PitchData)
    (s : CaptureState) (smoothMidi : ℚ) (pushed samples2 : List ℚ) (elapsed : ℚ)
    (hstage : s.stage = TestStage.capture_low ∨ s.stage = TestStage.capture_high)
    (hfreq : pitch.frequency_hz = some freq) (hpos : 0 < freq)
    (hlevel : RMS_THRESHOLD < level)
    (hnofast : ¬(CONFIDENCE_PASS_THRESHOLD ≤ pitch.confidence ∧
        s.fastPass.stage = some s.stage ∧
        ∃ u, s.fastPass.startAt = some u ∧ CONFIDENCE_PASS_MS ≤ timestamp - u))
    (hsm : smoothMidi = smoothWith s.lastGoodPitch (f2m freq))
    (hpu : pushed = s.stable.samples ++ [smoothMidi])
    (hsa : samples2 = if 20 < pushed.length then pushed.tail else pushed)
    (hel : elapsed = (match s.stable.startAt with | some a => timestamp - a | none => 0)) :
    (s.stable.samples = [] ∨ STABLE_NOTE_DELTA < |smoothMidi - median s.stable.samples| →
      (NewApp.handlePitchSampleForRangeTest f2m timestamp level pitch s).stable =
        ⟨some timestamp, some timestamp, [smoothMidi]⟩ ∧
      (NewApp.handlePitchSampleForRangeTest f2m timestamp level pitch s).stabilityMs = 0 ∧
      (NewApp.handlePitchSampleForRangeTest f2m timestamp level pitch s).stage = s.stage ∧
      (NewApp.handlePitchSampleForRangeTest f2m timestamp level pitch s).stableHistory =
        s.stableHistory ∧
      (NewApp.handlePitchSampleForRangeTest f2m timestamp level pitch s).lowMidi = s.lowMidi ∧
      (NewApp.handlePitchSampleForRangeTest f2m timestamp level pitch s).highMidi =
        s.highMidi) ∧
    (s.stable.samples ≠ [] → |smoothMidi - median s.stable.samples| ≤ STABLE_NOTE_DELTA →
      elapsed < STABLE_REQUIRED_MS →
      (NewApp.handlePitchSampleForRangeTest f2m timestamp level pitch s).stable =
        ⟨s.stable.startAt, some timestamp, samples2⟩ ∧
      (NewApp.handlePitchSampleForRangeTest f2m timestamp level pitch s).stableHistory =
        s.stableHistory ++ [smoothMidi] ∧
      (NewApp.handlePitchSampleForRangeTest f2m timestamp level pitch s).stabilityMs =
        elapsed ∧
      (NewApp.handlePitchSampleForRangeTest f2m timestamp level pitch s).stage = s.stage ∧
      (NewApp.handlePitchSampleForRangeTest f2m timestamp level pitch s).lowMidi = s.lowMidi ∧
      (NewApp.handlePitchSampleForRangeTest f2m timestamp level pitch s).highMidi =
        s.highMidi) ∧
    (s.stable.samples ≠ [] → |smoothMidi - median s.stable.samples| ≤ STABLE_NOTE_DELTA →
      STABLE_REQUIRED_MS ≤ elapsed →
      (∃ Y, NewApp.handlePitchSampleForRangeTest f2m timestamp level pitch s =
          NewApp.completeStageWithMidi s.stage (median samples2) timestamp Y) ∧
      (s.stage = TestStage.capture_low →
        (NewApp.handlePitchSampleForRangeTest f2m timestamp level pitch s).lowMidi =
          some (median samples2) ∧
        (NewApp.handlePitchSampleForRangeTest f2m timestamp level pitch s).stage =
          TestStage.capture_high) ∧
      (s.stage = TestStage.capture_high →
        ¬(timestamp - s.stageEnteredAt < HIGH_STAGE_MIN_DELAY_MS) →
        ∀ low, s.lowMidi = some low →
        ¬(median samples2 < low + HIGH_NOTE_MIN_SEMITONES) →
        (NewApp.handlePitchSampleForRangeTest f2m timestamp level pitch s).highMidi =
          some (median samples2) ∧
        (NewApp.handlePitchSampleForRangeTest f2m timestamp level pitch s).stage =
          TestStage.done)) := by
  rw [handle_valid_dispatch f2m timestamp level freq pitch s hstage hfreq hpos hlevel]
  obtain ⟨hgstage, hgstable, hglast, hgfp, hghist, hglow, hghigh, hgenter, -, -⟩ :=
    newGate_fields timestamp level s
  by_cases hconf : CONFIDENCE_PASS_THRESHOLD ≤ pitch.confidence
  · rw [if_pos hconf]
    by_cases hfpc : s.fastPass.stage ≠ some s.stage ∨ s.fastPass.startAt = none
    · rw [if_pos hfpc]
      exact stability_content f2m timestamp freq s _ smoothMidi pushed samples2 elapsed
        (by simp [hgstable]) (by simp [hglast]) (by simp [hghist]) (by simp [hgstage])
        (by simp [hglow]) (by simp [hghigh]) (by simp [hgenter]) hsm hpu hsa hel
    · push_neg at hfpc
      obtain ⟨hfe, hsann⟩ := hfpc
      obtain ⟨u, hu⟩ := Option.ne_none_iff_exists'.mp hsann
      rw [if_neg (by simp [hfe, hu])]
      simp only [hu]
      have h250 : ¬(CONFIDENCE_PASS_MS ≤ timestamp - u) := by
        intro hc
        exact hnofast ⟨hconf, hfe, u, hu, hc⟩
      rw [if_neg h250]
      exact stability_content f2m timestamp freq s _ smoothMidi pushed samples2 elapsed
        hgstable hglast hghist hgstage hglow hghigh hgenter hsm hpu hsa hel
  · rw [if_neg hconf]
    by_cases hfe : s.fastPass.stage = some s.stage
    · rw [if_pos hfe]
      exact stability_content f2m timestamp freq s _ smoothMidi pushed samples2 elapsed
        (by simp [hgstable]) (by simp [hglast]) (by simp [hghist]) (by simp [hgstage])
        (by simp [hglow]) (by simp [hghigh]) (by simp [hgenter]) hsm hpu hsa hel
    · rw [if_neg hfe]
      exact stability_content f2m timestamp freq s _ smoothMidi pushed samples2 elapsed
        hgstable hglast hghist hgstage hglow hghigh hgenter hsm hpu hsa hel

/-- Capture-low state holding the window `[50]` anchored at t = 0. -/
def w5State : CaptureState :=
  { NewApp.initialCaptureState with
      stage := TestStage.capture_low, sampleState := SampleState.valid,
      stable := ⟨some 0, some 0, [50]⟩, lastGoodPitch := some 50 }

/-- Witness for `stability_window_step`: a matching sample at t = 100 is
appended to the window, which keeps its anchor and reaches 100 ms of
stability. -/
theorem stability_window_step_witness :
    RMS_THRESHOLD < (1 : ℚ) / 2 ∧
    (NewApp.handlePitchSampleForRangeTest id 100 (1/2) ⟨some 50, 3/10, none, none⟩
        w5State).stable = ⟨some 0, some 100, [50, 50]⟩ ∧
    (NewApp.handlePitchSampleForRangeTest id 100 (1/2) ⟨some 50, 3/10, none, none⟩
        w5State).stabilityMs = 100 := by
  have h := stability_window_step id 100 (1/2) 50 ⟨some 50, 3/10, none, none⟩ w5State
    50 [50, 50] [50, 50] 100
    (Or.inl rfl) rfl (by norm_num) (by norm_num [RMS_THRESHOLD])
    (by intro hc; exact absurd hc.1 (by norm_num [CONFIDENCE_PASS_THRESHOLD]))
    (by norm_num [smoothWith, w5State, NewApp.initialCaptureState])
    (by simp [w5State, NewApp.initialCaptureState])
    (by norm_num)
    (by norm_num [w5State, NewApp.initialCaptureState])
  have h2 := h.2.1 (by simp [w5State, NewApp.initialCaptureState])
    (by norm_num [median, sortAsc, insertSorted, w5State, NewApp.initialCaptureState,
      STABLE_NOTE_DELTA])
    (by norm_num [STABLE_REQUIRED_MS])
  refine ⟨by norm_num [RMS_THRESHOLD], ?_, h2.2.2.1⟩
  have := h2.1
  simpa [w5State, NewApp.initialCaptureState] using this

/-- The stability segment never re-arms a cleared fast pass. -/
theorem stabilitySegment_fastPass (f2m : ℚ → ℚ) (stage : TestStage) (t freq : ℚ)
    (X : CaptureState) (h : X.fastPass = ⟨none, none⟩) :
    (NewApp.stabilitySegment f2m stage t freq X).fastPass = ⟨none, none⟩ := by
  obtain ⟨hA, hB, hC⟩ := stabilitySegment_cases f2m stage t freq X
    (smoothWith X.lastGoodPitch (f2m freq)) _ _ _ rfl rfl rfl rfl
  by_cases he : X.stable.samples = [] ∨
      STABLE_NOTE_DELTA < |smoothWith X.lastGoodPitch (f2m freq) - median X.stable.samples|
  · rw [hA he]
    simpa using h
  · push_neg at he
    by_cases hh : STABLE_REQUIRED_MS ≤
        (match X.stable.startAt with | some a => t - a | none => 0)
    · rw [hC he.1 he.2 hh]
      exact complete_fastPass _ _ _ _
    · rw [hB he.1 he.2 (not_le.mp hh)]
      simpa using h

/-- C6: the fast-pass shortcut.  Part one: a valid sample with confidence
at least 0.55 arriving `CONFIDENCE_PASS_MS` (250 ms) or more after the
recorded start of the uninterrupted high-confidence run of the current stage
completes the stage immediately through `completeStageWithMidi` with the
raw converted pitch of the sample (`frequencyToMidi freq`, modelling
`69 + 12*log2(f/440)`) — bypassing the stability window: in the low stage
it records that raw pitch and advances, in the high stage (past the
dwell/margin guards) it records it and finishes.  Part two: an invalid
sample clears the fast-pass state.  Part three: a valid sample with
confidence below 0.55 clears the fast-pass state of the current stage. -/
theorem fast_pass_behavior :
    (∀ (f2m : ℚ → ℚ) (timestamp level freq u : ℚ) (pitch : PitchData) (s : CaptureState),
      (s.stage = TestStage.capture_low ∨ s.stage = TestStage.capture_high) →
      pitch.frequency_hz = some freq → 0 < freq → RMS_THRESHOLD < level →
      CONFIDENCE_PASS_THRESHOLD ≤ pitch.confidence →
      s.fastPass.stage = some s.stage → s.fastPass.startAt = some u →
      CONFIDENCE_PASS_MS ≤ timestamp - u →
      NewApp.handlePitchSampleForRangeTest f2m timestamp level pitch s =
        NewApp.completeStageWithMidi s.stage (f2m freq) timestamp
          (NewApp.silenceGateStep timestamp level s) ∧
      (s.stage = TestStage.capture_low →
        (NewApp.handlePitchSampleForRangeTest f2m timestamp level pitch s).lowMidi =
          some (f2m freq) ∧
        (NewApp.handlePitchSampleForRangeTest f2m timestamp level pitch s).stage =
          TestStage.capture_high) ∧
      (s.stage = TestStage.capture_high →
        ¬(timestamp - s.stageEnteredAt < HIGH_STAGE_MIN_DELAY_MS) →
        ∀ low, s.lowMidi = some low → ¬(f2m freq < low + HIGH_NOTE_MIN_SEMITONES) →
        (NewApp.handlePitchSampleForRangeTest f2m timestamp level pitch s).highMidi =
          some (f2m freq) ∧
        (NewApp.handlePitchSampleForRangeTest f2m timestamp level pitch s).stage =
          TestStage.done)) ∧
    (∀ (f2m : ℚ → ℚ) (timestamp level : ℚ) (pitch : PitchData) (s : CaptureState),
      (s.stage = TestStage.capture_low ∨ s.stage = TestStage.capture_high) →
      (isValidSample level pitch = false ∨ pitch.frequency_hz = none) →
      (NewApp.handlePitchSampleForRangeTest f2m timestamp level pitch s).fastPass =
        ⟨none, none⟩) ∧
    (∀ (f2m : ℚ → ℚ) (timestamp level freq : ℚ) (pitch : PitchData) (s : CaptureState),
      (s.stage = TestStage.capture_low ∨ s.stage = TestStage.capture_high) →
      pitch.frequency_hz = some freq → 0 < freq → RMS_THRESHOLD < level →
      pitch.confidence < CONFIDENCE_PASS_THRESHOLD →
      s.fastPass.stage = some s.stage →
      (NewApp.handlePitchSampleForRangeTest f2m timestamp level pitch s).fastPass =
        ⟨none, none⟩) := by
  refine ⟨?_, ?_, ?_⟩
  · intro f2m timestamp level freq u pitch s hstage hfreq hpos hlevel hconf hfe hsu h250
    obtain ⟨hgstage, hgstable, hglast, hgfp, hghist, hglow, hghigh, hgenter, -, -⟩ :=
      newGate_fields timestamp level s
    have hmain : NewApp.handlePitchSampleForRangeTest f2m timestamp level pitch s =
        NewApp.completeStageWithMidi s.stage (f2m freq) timestamp
          (NewApp.silenceGateStep timestamp level s) := by
      rw [handle_valid_dispatch f2m timestamp level freq pitch s hstage hfreq hpos hlevel]
      rw [if_pos hconf]
      rw [if_neg (by simp [hfe, hsu])]
      simp only [hsu]
      rw [if_pos h250]
    refine ⟨hmain, ?_, ?_⟩
    · intro hst
      rw [hmain, hst]
      obtain ⟨hco1, hco2, -, -, -⟩ := complete_low (f2m freq) timestamp
        (NewApp.silenceGateStep timestamp level s)
      exact ⟨hco1, hco2⟩
    · intro hst hdwell low hlow hmargin
      rw [hmain, hst]
      exact complete_high_accept (f2m freq) timestamp low _
        (by rwa [hgenter]) (by rwa [hglow]) hmargin
  · intro f2m timestamp level pitch s hstage hinv
    unfold NewApp.handlePitchSampleForRangeTest
    rw [if_neg (by rcases hstage with h | h <;> simp [h])]
    rw [if_pos hinv]
    rcases hlv : (NewApp.silenceGateStep timestamp level s).stable.lastValidAt with _ | lv
    · simp only [hlv]
      simp [NewApp.resetStability]
    · simp only [hlv]
      split_ifs <;> simp [NewApp.resetStability]
  · intro f2m timestamp level freq pitch s hstage hfreq hpos hlevel hlt hfe
    rw [handle_valid_dispatch f2m timestamp level freq pitch s hstage hfreq hpos hlevel]
    rw [if_neg (not_le.mpr hlt), if_pos hfe]
    exact stabilitySegment_fastPass f2m s.stage timestamp freq _ (by simp)

/-- Low-capture state 250 ms into an uninterrupted high-confidence run. -/
def w6State : CaptureState :=
  { NewApp.initialCaptureState with
      stage := TestStage.capture_low,
      fastPass := ⟨some TestStage.capture_low, some 0⟩ }

/-- Witness for `fast_pass_behavior`: from `w6State`, the confident
sample at t = 250 with pitch 80 completes the low stage immediately with
the raw pitch, and an invalid sample clears the fast pass. -/
theorem fast_pass_behavior_witness :
    (CONFIDENCE_PASS_MS ≤ (250 : ℚ) - 0) ∧
    ((NewApp.handlePitchSampleForRangeTest id 250 (1/2) ⟨some 80, 6/10, none, none⟩
        w6State).lowMidi = some 80 ∧
     (NewApp.handlePitchSampleForRangeTest id 250 (1/2) ⟨some 80, 6/10, none, none⟩
        w6State).stage = TestStage.capture_high) ∧
    (NewApp.handlePitchSampleForRangeTest id 300 0 ⟨none, 0, none, none⟩
        w6State).fastPass = ⟨none, none⟩ := by
  have h1 := (fast_pass_behavior.1 id 250 (1/2) 80 0 ⟨some 80, 6/10, none, none⟩ w6State
    (Or.inl rfl) rfl (by norm_num) (by norm_num [RMS_THRESHOLD])
    (by norm_num [CONFIDENCE_PASS_THRESHOLD]) rfl rfl
    (by norm_num [CONFIDENCE_PASS_MS]))
  have h2 := fast_pass_behavior.2.1 id 300 0 ⟨none, 0, none, none⟩ w6State
    (Or.inl rfl) (Or.inr rfl)
  exact ⟨by norm_num [CONFIDENCE_PASS_MS], h1.2.1 rfl, h2⟩

/-- C7: the widened fallback query.  With a complete rounded
`RangeResult`, the fallback query (overall bounds widened by 4, comfort
bounds by 2) is issued if and only if the primary query returns zero
results; when the fallback returns a non-empty list the status is set to
the "closest challenge songs" message and the fallback results (merged
only with the imported-only list, never with primary results) are
returned; when the primary query succeeds no fallback is issued and no
such status is set. -/
theorem fallback_query_iff (recommendSongs : RecoQuery → List SongRecommendation)
    (importedOnly : List SongRecommendation) (r : RangeResult)
    (lowMidi highMidi comfortLowMidi comfortHighMidi : ℚ) (primary fallback : RecoQuery)
    (h1 : r.lowMidi = some lowMidi) (h2 : r.highMidi = some highMidi)
    (h3 : r.comfortLowMidi = some comfortLowMidi)
    (h4 : r.comfortHighMidi = some comfortHighMidi)
    (hp : primary = ⟨jsRound lowMidi, jsRound highMidi,
        jsRound comfortLowMidi, jsRound comfortHighMidi⟩)
    (hf : fallback = ⟨jsRound lowMidi - 4, jsRound highMidi + 4,
        jsRound comfortLowMidi - 2, jsRound comfortHighMidi + 2⟩) :
    (fallback ∈ (NewApp.loadRecommendations recommendSongs importedOnly r).queriesIssued ↔
      recommendSongs primary = []) ∧
    (recommendSongs primary = [] →
      (NewApp.loadRecommendations recommendSongs importedOnly r).queriesIssued =
        [primary, fallback] ∧
      (NewApp.loadRecommendations recommendSongs importedOnly r).recommendations =
        NewApp.mergeImported (recommendSongs fallback) importedOnly ∧
      (recommendSongs fallback ≠ [] →
        (NewApp.loadRecommendations recommendSongs importedOnly r).statusMsg =
          some "No strict matches. Showing closest challenge songs.") ∧
      (recommendSongs fallback = [] →
        (NewApp.loadRecommendations recommendSongs importedOnly r).statusMsg = none)) ∧
    (recommendSongs primary ≠ [] →
      (NewApp.loadRecommendations recommendSongs importedOnly r).queriesIssued =
        [primary] ∧
      (NewApp.loadRecommendations recommendSongs importedOnly r).recommendations =
        NewApp.mergeImported (recommendSongs primary) importedOnly ∧
      (NewApp.loadRecommendations recommendSongs importedOnly r).statusMsg = none) := by
  subst hp hf
  have hne : (⟨jsRound lowMidi - 4, jsRound highMidi + 4,
      jsRound comfortLowMidi - 2, jsRound comfortHighMidi + 2⟩ : RecoQuery) ≠
      ⟨jsRound lowMidi, jsRound highMidi, jsRound comfortLowMidi, jsRound comfortHighMidi⟩ := by
    intro h
    rw [RecoQuery.mk.injEq] at h
    omega
  unfold NewApp.loadRecommendations
  simp only [h1, h2, h3, h4]
  by_cases hz : recommendSongs ⟨jsRound lowMidi, jsRound highMidi,
      jsRound comfortLowMidi, jsRound comfortHighMidi⟩ = []
  · rw [if_pos (by simp [hz])]
    refine ⟨by simp [hz], fun _ => ⟨rfl, rfl, ?_, ?_⟩, fun hnz => absurd hz hnz⟩
    · intro hfb
      simp [List.length_pos_of_ne_nil hfb]
    · intro hfb
      simp [hfb]
  · rw [if_neg (by simpa using hz)]
    exact ⟨by simp [hz, hne], fun hc => absurd hc hz, fun _ => ⟨rfl, rfl, rfl⟩⟩

/-- Witness for `fallback_query_iff`, using the worked scenario of the
specification: primary query (48, 72, 55, 67) matches nothing, fallback
(44, 76, 53, 69) matches one song, which is flagged via the status line. -/
theorem fallback_query_iff_witness :
    ((fun q : RecoQuery => if q = ⟨44, 76, 53, 69⟩
        then [(⟨"Challenge", "Artist", 0, 70, false⟩ : SongRecommendation)] else [])
      (⟨48, 72, 55, 67⟩ : RecoQuery) = []) ∧
    (NewApp.loadRecommendations
        (fun q : RecoQuery => if q = ⟨44, 76, 53, 69⟩
          then [(⟨"Challenge", "Artist", 0, 70, false⟩ : SongRecommendation)] else [])
        [] ⟨some 48, some 72, some 55, some 67⟩).queriesIssued =
      [⟨48, 72, 55, 67⟩, ⟨44, 76, 53, 69⟩] ∧
    (NewApp.loadRecommendations
        (fun q : RecoQuery => if q = ⟨44, 76, 53, 69⟩
          then [(⟨"Challenge", "Artist", 0, 70, false⟩ : SongRecommendation)] else [])
        [] ⟨some 48, some 72, some 55, some 67⟩).statusMsg =
      some "No strict matches. Showing closest challenge songs." := by
  have h := fallback_query_iff
    (fun q : RecoQuery => if q = ⟨44, 76, 53, 69⟩
      then [(⟨"Challenge", "Artist", 0, 70, false⟩ : SongRecommendation)] else [])
    [] ⟨some 48, some 72, some 55, some 67⟩ 48 72 55 67
    ⟨48, 72, 55, 67⟩ ⟨44, 76, 53, 69⟩ rfl rfl rfl rfl
    (by norm_num [jsRound]) (by norm_num [jsRound])
  have hz : (fun q : RecoQuery => if q = ⟨44, 76, 53, 69⟩
      then [(⟨"Challenge", "Artist", 0, 70, false⟩ : SongRecommendation)] else [])
      (⟨48, 72, 55, 67⟩ : RecoQuery) = [] := by norm_num
  have h2 := h.2.1 hz
  exact ⟨hz, h2.1, h2.2.2.1 (by norm_num)⟩

/-- Invariants of the imported-merge fold: the seen set is exactly the
keys of the output list, it stays duplicate-free, it only grows, and
the key of every processed song ends up in it. -/
theorem mergeFold_spec (l : List SongRecommendation) :
    ∀ acc : List SongRecommendation × List String, acc.2 = acc.1.map songKey →
      ((l.foldl NewApp.mergeStep acc).2 = (l.foldl NewApp.mergeStep acc).1.map songKey ∧
       (acc.2.Nodup → (l.foldl NewApp.mergeStep acc).2.Nodup) ∧
       (∀ k, k ∈ acc.2 → k ∈ (l.foldl NewApp.mergeStep acc).2) ∧
       (∀ song ∈ l, songKey song ∈ (l.foldl NewApp.mergeStep acc).2)) := by
  induction l with
  | nil =>
    intro acc hacc
    exact ⟨hacc, fun h => h, fun k hk => hk, by simp⟩
  | cons x xs ih =>
    intro acc hacc
    rw [List.foldl_cons]
    by_cases hx : songKey x ∈ acc.2
    · rw [show NewApp.mergeStep acc x = acc from if_pos hx]
      obtain ⟨i1, i2, i3, i4⟩ := ih acc hacc
      refine ⟨i1, i2, i3, ?_⟩
      intro song hs
      rcases List.mem_cons.mp hs with rfl | hs
      · exact i3 _ hx
      · exact i4 song hs
    · rw [show NewApp.mergeStep acc x = (acc.1 ++ [x], acc.2 ++ [songKey x]) from if_neg hx]
      obtain ⟨i1, i2, i3, i4⟩ := ih (acc.1 ++ [x], acc.2 ++ [songKey x]) (by simp [hacc])
      refine ⟨i1, ?_, ?_, ?_⟩
      · intro hnd
        exact i2 (hnd.append (List.nodup_singleton _) (List.disjoint_singleton.2 hx))
      · intro k hk
        exact i3 k (by simp [hk])
      · intro song hs
        rcases List.mem_cons.mp hs with rfl | hs
        · exact i3 _ (by simp)
        · exact i4 song hs

/-- The key of each imported song occurs exactly once in the merged list,
provided the ranged results themselves carry no duplicate keys. -/
theorem mergeImported_key_once (recs importedOnly : List SongRecommendation)
    (song : SongRecommendation) (hnd : (recs.map songKey).Nodup)
    (hs : song ∈ importedOnly) :
    ((NewApp.mergeImported recs importedOnly).map songKey).count (songKey song) = 1 := by
  obtain ⟨i1, i2, i3, i4⟩ := mergeFold_spec importedOnly (recs, recs.map songKey) (by simp)
  have hmem := i4 song hs
  have hnd2 := i2 hnd
  rw [i1] at hmem hnd2
  exact List.count_eq_one_of_mem hnd2 hmem

/-- Invariants of the visible-slice filter fold: the seen set is the base
keys followed by the keys of the kept songs, it only grows, and every
imported processed song has its key end up in it. -/
theorem visFold_spec (l : List SongRecommendation) :
    ∀ (acc : List SongRecommendation × List String) (base : List String),
      acc.2 = base ++ acc.1.map songKey →
      ((l.foldl NewApp.visStep acc).2 = base ++ (l.foldl NewApp.visStep acc).1.map songKey ∧
       (∀ k, k ∈ acc.2 → k ∈ (l.foldl NewApp.visStep acc).2) ∧
       (∀ x ∈ l, x.is_imported = true → songKey x ∈ (l.foldl NewApp.visStep acc).2)) := by
  induction l with
  | nil =>
    intro acc base hacc
    exact ⟨hacc, fun k hk => hk, by simp⟩
  | cons x xs ih =>
    intro acc base hacc
    rw [List.foldl_cons]
    by_cases himp : x.is_imported = false
    · rw [show NewApp.visStep acc x = acc from if_pos himp]
      obtain ⟨i1, i2, i3⟩ := ih acc base hacc
      refine ⟨i1, i2, ?_⟩
      intro y hy hyi
      rcases List.mem_cons.mp hy with rfl | hy
      · rw [hyi] at himp
        cases himp
      · exact i3 y hy hyi
    · rw [show NewApp.visStep acc x = (if songKey x ∈ acc.2 then acc
          else (acc.1 ++ [x], acc.2 ++ [songKey x])) from if_neg himp]
      by_cases hx : songKey x ∈ acc.2
      · rw [if_pos hx]
        obtain ⟨i1, i2, i3⟩ := ih acc base hacc
        refine ⟨i1, i2, ?_⟩
        intro y hy hyi
        rcases List.mem_cons.mp hy with rfl | hy
        · exact i2 _ hx
        · exact i3 y hy hyi
      · rw [if_neg hx]
        obtain ⟨i1, i2, i3⟩ := ih (acc.1 ++ [x], acc.2 ++ [songKey x]) base
          (by simp [hacc])
        refine ⟨i1, ?_, ?_⟩
        · intro k hk
          exact i2 k (by simp [hk])
        · intro y hy hyi
          rcases List.mem_cons.mp hy with rfl | hy
          · exact i2 _ (by simp)
          · exact i3 y hy hyi

/-- Every imported song of the recommendation list is visible in the
default (top 5) slice. -/
theorem visible_contains_imported (recommendations : List SongRecommendation)
    (s : SongRecommendation) (hs : s ∈ recommendations) (him : s.is_imported = true) :
    songKey s ∈ (NewApp.visibleRecommendations false recommendations).map songKey := by
  unfold NewApp.visibleRecommendations
  rw [if_neg (by simp)]
  obtain ⟨i1, i2, i3⟩ := visFold_spec recommendations
    (([] : List SongRecommendation), (recommendations.take 5).map songKey)
    ((recommendations.take 5).map songKey) (by simp)
  have hmem := i3 s hs him
  rw [i1] at hmem
  simpa using hmem

/-- C8: imported songs in the merged output and the display slice.  Part
one: every song of the imported-only query result appears in the merged
recommendation list exactly once by title/artist key, regardless of its
score, provided the ranged results have no duplicate keys themselves.
Part two: in the default top-5 display slice, every imported song of the
recommendation list stays visible — its key appears among the visible
entries (the top 5 plus the appended imported songs). -/
theorem imported_merge_and_visibility :
    (∀ (recs importedOnly : List SongRecommendation) (song : SongRecommendation),
      (recs.map songKey).Nodup → song ∈ importedOnly →
      ((NewApp.mergeImported recs importedOnly).map songKey).count (songKey song) = 1) ∧
    (∀ (recommendations : List SongRecommendation) (s : SongRecommendation),
      s ∈ recommendations → s.is_imported = true →
      songKey s ∈ (NewApp.visibleRecommendations false recommendations).map songKey) :=
  ⟨fun recs importedOnly song hnd hs => mergeImported_key_once recs importedOnly song hnd hs,
   fun recommendations s hs him => visible_contains_imported recommendations s hs him⟩

/-- Witness for `imported_merge_and_visibility`: one ranged song and one
low-scoring imported song; the key of the imported song occurs once in the
merge and stays visible in the default slice. -/
theorem imported_merge_and_visibility_witness :
    ((([(⟨"A", "X", 0, 90, false⟩ : SongRecommendation)].map songKey).Nodup) ∧
     ((NewApp.mergeImported [⟨"A", "X", 0, 90, false⟩]
         [⟨"B", "Y", 0, 10, true⟩]).map songKey).count
       (songKey ⟨"B", "Y", 0, 10, true⟩) = 1) ∧
    songKey (⟨"B", "Y", 0, 10, true⟩ : SongRecommendation) ∈
      (NewApp.visibleRecommendations false
        [⟨"A", "X", 0, 90, false⟩, ⟨"B", "Y", 0, 10, true⟩]).map songKey :=
  ⟨⟨by simp,
    imported_merge_and_visibility.1 [⟨"A", "X", 0, 90, false⟩] [⟨"B", "Y", 0, 10, true⟩]
      ⟨"B", "Y", 0, 10, true⟩ (by simp) (by simp)⟩,
   imported_merge_and_visibility.2 [⟨"A", "X", 0, 90, false⟩, ⟨"B", "Y", 0, 10, true⟩]
     ⟨"B", "Y", 0, 10, true⟩ (by simp) rfl⟩

/-- The original and redesigned helpers below the silence gate are
definitionally identical. -/
theorem old_new_resetStability : OldApp.resetStability = NewApp.resetStability := rfl

/-- `finishRangeTest` is identical in both versions. -/
theorem old_new_finishRangeTest : OldApp.finishRangeTest = NewApp.finishRangeTest := rfl

/-- `completeStageWithMidi` is identical in both versions. -/
theorem old_new_completeStageWithMidi :
    OldApp.completeStageWithMidi = NewApp.completeStageWithMidi := rfl

/-- The smoothing and stability segment is identical in both versions. -/
theorem old_new_stabilitySegment : OldApp.stabilitySegment = NewApp.stabilitySegment := rfl

/-- Forgets the user-facing instruction text, keeping every capture-state
component: stage, recorded low/high midi, stability window and anchor,
fast-pass state, stable history, range result, gate state and timers. -/
def stripInstruction (s : CaptureState) : CaptureState := { s with instruction := "" }

/-- States equal up to the instruction text agree on every capture
field. -/
theorem strip_fields (s₁ s₂ : CaptureState)
    (h : stripInstruction s₁ = stripInstruction s₂) :
    s₁.stage = s₂.stage ∧ s₁.stabilityMs = s₂.stabilityMs ∧
    s₁.sampleState = s₂.sampleState ∧ s₁.awaitingResultStep = s₂.awaitingResultStep ∧
    s₁.rangeResult = s₂.rangeResult ∧ s₁.fastPass = s₂.fastPass ∧
    s₁.stageEnteredAt = s₂.stageEnteredAt ∧
    s₁.waitForSilenceBeforeHigh = s₂.waitForSilenceBeforeHigh ∧
    s₁.silenceStart = s₂.silenceStart ∧ s₁.stable = s₂.stable ∧
    s₁.lastGoodPitch = s₂.lastGoodPitch ∧ s₁.stableHistory = s₂.stableHistory ∧
    s₁.lowMidi = s₂.lowMidi ∧ s₁.highMidi = s₂.highMidi := by
  cases s₁
  cases s₂
  simp only [stripInstruction, CaptureState.mk.injEq] at h
  simpa using h

/-- `finishRangeTest` always overwrites the instruction, so it maps
strip-equal states to equal states. -/
theorem finish_strip (s₁ s₂ : CaptureState)
    (h : stripInstruction s₁ = stripInstruction s₂) :
    NewApp.finishRangeTest s₁ = NewApp.finishRangeTest s₂ := by
  cases s₁
  cases s₂
  simp only [stripInstruction, CaptureState.mk.injEq, true_and, and_true,
    String.reduceEq] at h
  obtain ⟨h1, h2, h3, h4, h5, h6, h7, h8, h9, h10, h11, h12, h13, h14⟩ := h
  subst h1 h2 h3 h4 h5 h6 h7 h8 h9 h10 h11 h12 h13 h14
  rename_i lo hi
  unfold NewApp.finishRangeTest
  cases lo <;> cases hi <;> simp

/-- `resetStability` preserves strip-equality. -/
theorem reset_strip (s₁ s₂ : CaptureState)
    (h : stripInstruction s₁ = stripInstruction s₂) :
    stripInstruction (NewApp.resetStability s₁) =
      stripInstruction (NewApp.resetStability s₂) := by
  cases s₁
  cases s₂
  simp only [stripInstruction, CaptureState.mk.injEq] at h ⊢
  simp_all [NewApp.resetStability]

/-- Stage finalization maps strip-equal states to strip-equal states. -/
theorem complete_strip (st : TestStage) (m t : ℚ) (s₁ s₂ : CaptureState)
    (h : stripInstruction s₁ = stripInstruction s₂) :
    stripInstruction (NewApp.completeStageWithMidi st m t s₁) =
      stripInstruction (NewApp.completeStageWithMidi st m t s₂) := by
  obtain ⟨f1, f2, f3, f4, f5, f6, f7, f8, f9, f10, f11, f12, f13, f14⟩ :=
    strip_fields s₁ s₂ h
  unfold NewApp.completeStageWithMidi
  by_cases h1 : st = TestStage.capture_low
  · simp [NewApp.resetStability, h1, stripInstruction, f1, f2, f3, f4, f5, f6, f7, f8,
      f9, f10, f11, f12, f13, f14]
  · rw [if_neg h1, if_neg h1]
    simp only [NewApp.resetStability]
    by_cases h2 : t - s₁.stageEnteredAt < HIGH_STAGE_MIN_DELAY_MS
    · rw [if_pos (by simpa using h2), if_pos (by simpa [f7] using h2)]
      simp [stripInstruction, f1, f2, f3, f4, f5, f6, f7, f8, f9, f10, f11, f12, f13, f14]
    · by_cases h3 : (match s₁.lowMidi with
          | some lowMidi => decide (m < lowMidi + HIGH_NOTE_MIN_SEMITONES)
          | none => false) = true
      · rw [if_neg (by simpa using h2), if_pos (by simpa using h3),
          if_neg (by simpa [f7] using h2), if_pos (by simpa [f13] using h3)]
        simp [stripInstruction, f1, f2, f3, f4, f5, f6, f7, f8, f9, f10, f11, f12, f13,
          f14]
      · rw [if_neg (by simpa using h2), if_neg (by simpa using h3),
          if_neg (by simpa [f7] using h2), if_neg (by simpa [f13] using h3)]
        congr 1
        apply finish_strip
        simp only [stripInstruction, CaptureState.mk.injEq]
        simp [f1, f2, f3, f4, f5, f6, f7, f8, f9, f10, f11, f12, f13, f14]

/-- Updating the fast pass of both states the same way preserves
strip-equality. -/
theorem fastPass_update_strip (a b : CaptureState) (v : FastPassState)
    (h : stripInstruction a = stripInstruction b) :
    stripInstruction { a with fastPass := v } = stripInstruction { b with fastPass := v } := by
  cases a
  cases b
  simp only [stripInstruction, CaptureState.mk.injEq] at h ⊢
  simp_all

/-- Marking both states invalid the same way preserves strip-equality. -/
theorem invalid_update_strip (a b : CaptureState)
    (h : stripInstruction a = stripInstruction b) :
    stripInstruction
        { a with fastPass := (⟨none, none⟩ : FastPassState),
                 sampleState := SampleState.invalid } =
      stripInstruction
        { b with fastPass := (⟨none, none⟩ : FastPassState),
                 sampleState := SampleState.invalid } := by
  cases a
  cases b
  simp only [stripInstruction, CaptureState.mk.injEq] at h ⊢
  simp_all

/-- The stability segment maps strip-equal states to strip-equal
states. -/
theorem stabilitySegment_strip (f2m : ℚ → ℚ) (st : TestStage) (t fr : ℚ)
    (s₁ s₂ : CaptureState) (h : stripInstruction s₁ = stripInstruction s₂) :
    stripInstruction (NewApp.stabilitySegment f2m st t fr s₁) =
      stripInstruction (NewApp.stabilitySegment f2m st t fr s₂) := by
  obtain ⟨f1, f2, f3, f4, f5, f6, f7, f8, f9, f10, f11, f12, f13, f14⟩ :=
    strip_fields s₁ s₂ h
  obtain ⟨hA1, hB1, hC1⟩ := stabilitySegment_cases f2m st t fr s₁
    (smoothWith s₁.lastGoodPitch (f2m fr)) _ _ _ rfl rfl rfl rfl
  obtain ⟨hA2, hB2, hC2⟩ := stabilitySegment_cases f2m st t fr s₂
    (smoothWith s₁.lastGoodPitch (f2m fr)) (s₁.stable.samples ++
      [smoothWith s₁.lastGoodPitch (f2m fr)])
    (if 20 < (s₁.stable.samples ++ [smoothWith s₁.lastGoodPitch (f2m fr)]).length
      then (s₁.stable.samples ++ [smoothWith s₁.lastGoodPitch (f2m fr)]).tail
      else s₁.stable.samples ++ [smoothWith s₁.lastGoodPitch (f2m fr)])
    (match s₁.stable.startAt with | some a => t - a | none => 0)
    (by rw [f11]) (by rw [f10]) rfl (by rw [f10])
  by_cases he : s₁.stable.samples = [] ∨
      STABLE_NOTE_DELTA <
        |smoothWith s₁.lastGoodPitch (f2m fr) - median s₁.stable.samples|
  · have he₂ := he
    rw [f10] at he₂
    rw [hA1 he, hA2 he₂]
    cases s₁
    cases s₂
    simp only [stripInstruction, CaptureState.mk.injEq] at h ⊢
    simp_all
  · push_neg at he
    have he₂ := he
    rw [f10] at he₂
    by_cases hh : STABLE_REQUIRED_MS ≤
        (match s₁.stable.startAt with | some a => t - a | none => 0)
    · rw [hC1 he.1 he.2 hh, hC2 he₂.1 he₂.2 hh]
      apply complete_strip
      cases s₁
      cases s₂
      simp only [stripInstruction, CaptureState.mk.injEq] at h ⊢
      simp_all
    · rw [hB1 he.1 he.2 (not_le.mp hh), hB2 he₂.1 he₂.2 (not_le.mp hh)]
      cases s₁
      cases s₂
      simp only [stripInstruction, CaptureState.mk.injEq] at h ⊢
      simp_all

/-- The two versions of the silence gate map strip-equal states to
strip-equal states: they differ only in the instruction text they emit
when the gate clears. -/
theorem gate_strip (t l : ℚ) (s₁ s₂ : CaptureState)
    (h : stripInstruction s₁ = stripInstruction s₂) :
    stripInstruction (OldApp.silenceGateStep t l s₁) =
      stripInstruction (NewApp.silenceGateStep t l s₂) := by
  obtain ⟨st1, i1, sm1, ss1, aw1, rr1, fp1, se1, w1, sil1, stb1, lg1, hh1, lo1, hi1⟩ := s₁
  obtain ⟨st2, i2, sm2, ss2, aw2, rr2, fp2, se2, w2, sil2, stb2, lg2, hh2, lo2, hi2⟩ := s₂
  simp only [stripInstruction, CaptureState.mk.injEq, true_and, and_true,
    String.reduceEq] at h
  obtain ⟨h1, h2, h3, h4, h5, h6, h7, h8, h9, h10, h11, h12, h13, h14⟩ := h
  subst h1 h2 h3 h4 h5 h6 h7 h8 h9 h10 h11 h12 h13 h14
  unfold OldApp.silenceGateStep NewApp.silenceGateStep
  cases sil1 <;> split_ifs <;> simp [stripInstruction, apply_ite]

/-- One sample through the original and the redesigned handler: strip-equal
input states yield strip-equal output states. -/
theorem handle_strip (f2m : ℚ → ℚ) (t l : ℚ) (pitch : PitchData) (s₁ s₂ : CaptureState)
    (h : stripInstruction s₁ = stripInstruction s₂) :
    stripInstruction (OldApp.handlePitchSampleForRangeTest f2m t l pitch s₁) =
      stripInstruction (NewApp.handlePitchSampleForRangeTest f2m t l pitch s₂) := by
  obtain ⟨f1, -, -, -, -, f6, -, -, -, -, -, -, -, -⟩ := strip_fields s₁ s₂ h
  have hgate := gate_strip t l s₁ s₂ h
  obtain ⟨g1, -, -, -, -, g6, -, -, -, g10, -, -, -, -⟩ := strip_fields _ _ hgate
  unfold OldApp.handlePitchSampleForRangeTest NewApp.handlePitchSampleForRangeTest
  by_cases hg : s₂.stage ≠ TestStage.capture_low ∧ s₂.stage ≠ TestStage.capture_high
  · rw [if_pos (by rw [f1]; exact hg), if_pos hg]
    exact h
  · rw [if_neg (by rw [f1]; exact hg), if_neg hg]
    by_cases hv : isValidSample l pitch = false ∨ pitch.frequency_hz = none
    · rw [if_pos hv, if_pos hv]
      have hinv := invalid_update_strip _ _ hgate
      rcases hlv : (NewApp.silenceGateStep t l s₂).stable.lastValidAt with _ | lv
      · have hlv1 : (OldApp.silenceGateStep t l s₁).stable.lastValidAt = none := by
          rw [g10, hlv]
        simp only [hlv, hlv1]
        rw [old_new_resetStability]
        exact reset_strip _ _ hinv
      · have hlv1 : (OldApp.silenceGateStep t l s₁).stable.lastValidAt = some lv := by
          rw [g10, hlv]
        simp only [hlv, hlv1]
        split_ifs with hlt
        · exact hinv
        · rw [old_new_resetStability]
          exact reset_strip _ _ hinv
    · rw [if_neg hv, if_neg hv]
      rcases hfz : pitch.frequency_hz with _ | freq
      · simp only [hfz]
        exact hgate
      · simp only [hfz]
        by_cases hconf : CONFIDENCE_PASS_THRESHOLD ≤ pitch.confidence
        · rw [if_pos hconf, if_pos hconf]
          by_cases hfpc : (NewApp.silenceGateStep t l s₂).fastPass.stage ≠ some s₂.stage ∨
              (NewApp.silenceGateStep t l s₂).fastPass.startAt = none
          · rw [if_pos (by rw [g6, f1]; exact hfpc), if_pos hfpc]
            rw [old_new_stabilitySegment, f1]
            exact stabilitySegment_strip f2m s₂.stage t freq _ _
              (fastPass_update_strip _ _ _ hgate)
          · rw [if_neg (by rw [g6, f1]; exact hfpc), if_neg hfpc]
            push_neg at hfpc
            obtain ⟨u, hu⟩ := Option.ne_none_iff_exists'.mp hfpc.2
            have hu1 : (OldApp.silenceGateStep t l s₁).fastPass.startAt = some u := by
              rw [g6]
              exact hu
            simp only [hu, hu1]
            split_ifs with h250
            · rw [old_new_completeStageWithMidi, f1]
              exact complete_strip _ _ _ _ _ hgate
            · rw [old_new_stabilitySegment, f1]
              exact stabilitySegment_strip _ _ _ _ _ _ hgate
        · rw [if_neg hconf, if_neg hconf]
          by_cases hfe : (NewApp.silenceGateStep t l s₂).fastPass.stage = some s₂.stage
          · rw [if_pos (by rw [g6, f1]; exact hfe), if_pos hfe]
            rw [old_new_stabilitySegment, f1]
            exact stabilitySegment_strip _ _ _ _ _ _ (fastPass_update_strip _ _ _ hgate)
          · rw [if_neg (by rw [g6, f1]; exact hfe), if_neg hfe]
            rw [old_new_stabilitySegment, f1]
            exact stabilitySegment_strip _ _ _ _ _ _ hgate

/-- C10: refinement equivalence of the two per-sample handlers.  For
every sample sequence, running the original `src/App.tsx` handler and the
redesigned handler from capture states that agree on everything but the
instruction text produces final states that again agree on everything but
the instruction text: same stage, recorded low/high midi, stability-window
contents and anchor, fast-pass state, stable history and `RangeResult`
(`stripInstruction` keeps precisely those components).  The two handlers
differ only in one user-facing instruction string emitted when the silence
gate clears. -/
theorem old_new_range_test_equivalence (f2m : ℚ → ℚ)
    (samples : List (ℚ × ℚ × PitchData)) (s₁ s₂ : CaptureState)
    (h : stripInstruction s₁ = stripInstruction s₂) :
    stripInstruction (OldApp.processSamples f2m s₁ samples) =
      stripInstruction (NewApp.processSamples f2m s₂ samples) := by
  induction samples generalizing s₁ s₂ with
  | nil => simpa [OldApp.processSamples, NewApp.processSamples] using h
  | cons x xs ih =>
    simp only [OldApp.processSamples, NewApp.processSamples, List.foldl_cons] at ih ⊢
    exact ih _ _ (handle_strip f2m x.1 x.2.1 x.2.2 s₁ s₂ h)

/-- Witness for `old_new_range_test_equivalence`: both handlers applied to
the same freshly started test and one valid sample. -/
theorem old_new_range_test_equivalence_witness :
    stripInstruction (NewApp.startRangeTest 0 NewApp.initialCaptureState) =
      stripInstruction (NewApp.startRangeTest 0 NewApp.initialCaptureState) ∧
    stripInstruction (OldApp.processSamples id
        (NewApp.startRangeTest 0 NewApp.initialCaptureState)
        [(0, 1/2, ⟨some 50, 3/10, none, none⟩)]) =
      stripInstruction (NewApp.processSamples id
        (NewApp.startRangeTest 0 NewApp.initialCaptureState)
        [(0, 1/2, ⟨some 50, 3/10, none, none⟩)]) :=
  ⟨rfl, old_new_range_test_equivalence id [(0, 1/2, ⟨some 50, 3/10, none, none⟩)] _ _ rfl⟩
